import Mathlib

/-!
Verification development for the RSS ingestion and cache-refresh pipeline of
`src/lib/rss.server.ts`: the feed-cache coordinator `getRSSEntries`, the
refresh-lock manager, the batched transactional upsert, the XML feed parse
pipeline, the date normalizer `formatDate`, and the image extractor
`extractImage`.

The TypeScript code is shallowly embedded: machine-level effects (the MySQL
store, the network fetch, the wall clock, the native `Date` parser) are made
explicit oracles/parameters, JavaScript values flowing out of the XML parser
are modelled by a small JSON-like tree type, and every fallible operation is
threaded through an explicit error value mirroring the code's `try`/`catch`
structure.
-/

namespace RSSVerify

/-! ## Character and string primitives

JavaScript strings are modelled by Lean `String`; the MySQL `ORDER BY` over
`pub_date` text values is modelled by code-point lexicographic order on the
character list, implemented directly so that it evaluates and so that
totality/transitivity are provable. -/

/-- Code-point lexicographic `≤` on character lists (models MySQL's
lexicographic ordering of the textual `pub_date` column). -/
def charsLe : List Char → List Char → Bool
  | [], _ => true
  | _ :: _, [] => false
  | a :: as, b :: bs => if a = b then charsLe as bs else decide (a.toNat < b.toNat)

/-- Lexicographic `≤` on strings. -/
def strLe (a b : String) : Bool := charsLe a.data b.data

theorem char_toNat_inj {a b : Char} (h : a.toNat = b.toNat) : a = b :=
  Char.ext (UInt32.ext h)

theorem charsLe_total (a b : List Char) : charsLe a b = true ∨ charsLe b a = true := by
  induction a generalizing b with
  | nil => left; rfl
  | cons x xs ih =>
    cases b with
    | nil => right; rfl
    | cons y ys =>
      by_cases hxy : x = y
      · subst hxy
        rcases ih ys with h | h
        · left; simp [charsLe, h]
        · right; simp [charsLe, h]
      · have hyx : ¬ y = x := fun h => hxy h.symm
        rcases Nat.lt_or_ge x.toNat y.toNat with h | h
        · left; simp [charsLe, hxy, h]
        · have hlt : y.toNat < x.toNat := by
            rcases Nat.lt_or_ge y.toNat x.toNat with h2 | h2
            · exact h2
            · exact absurd (char_toNat_inj (by omega)) hxy
          right; simp [charsLe, hyx, hlt]

theorem charsLe_trans {a b c : List Char} (h1 : charsLe a b = true)
    (h2 : charsLe b c = true) : charsLe a c = true := by
  induction a generalizing b c with
  | nil => rfl
  | cons x xs ih =>
    cases b with
    | nil => simp [charsLe] at h1
    | cons y ys =>
      cases c with
      | nil => simp [charsLe] at h2
      | cons z zs =>
        by_cases hxy : x = y <;> by_cases hyz : y = z
        · subst hxy; subst hyz
          simp only [charsLe, if_pos rfl] at h1 h2 ⊢
          exact ih h1 h2
        · subst hxy
          simpa [charsLe, hyz] using h2
        · subst hyz
          simpa [charsLe, hxy] using h1
        · simp only [charsLe, if_neg hxy, decide_eq_true_eq] at h1
          simp only [charsLe, if_neg hyz, decide_eq_true_eq] at h2
          have hxz : ¬ x = z := by
            intro h; subst h; omega
          simp only [charsLe, if_neg hxz, decide_eq_true_eq]
          omega

theorem strLe_total (a b : String) : strLe a b = true ∨ strLe b a = true :=
  charsLe_total a.data b.data

theorem strLe_trans {a b c : String} (h1 : strLe a b = true) (h2 : strLe b c = true) :
    strLe a c = true :=
  charsLe_trans h1 h2

/-! ## The ECMAScript instant model

`Date` instants are epoch milliseconds (`Nat`, i.e. instants at or after the
Unix epoch).  `toISOString` follows the ECMA-262 Date-Time string format,
computing the civil date by the standard successive-division
(century / quadrennium / year-in-quadrennium) Gregorian algorithm. -/

/-- Civil date (year, month, day) of a day count since 1970-01-01 (UTC),
standard proleptic-Gregorian successive-division algorithm on eras of
146097 days starting 0000-03-01. -/
def civilFromDays (days : Nat) : Nat × Nat × Nat :=
  let z := days + 719468
  let era := z / 146097
  let doe := z % 146097
  let century := min (doe / 36524) 3
  let doc := doe - 36524 * century
  let quad := doc / 1461
  let doq := doc - 1461 * quad
  let yiq := min (doq / 365) 3
  let doy := doq - 365 * yiq
  let yoe := 100 * century + 4 * quad + yiq
  let mp := (5 * doy + 2) / 153
  let d := doy - (153 * mp + 2) / 5 + 1
  let m := if mp < 10 then mp + 3 else mp - 9
  let y := era * 400 + yoe + (if m ≤ 2 then 1 else 0)
  (y, m, d)

/-- Day count since 1970-01-01 of a civil date (inverse direction, used to
state what "interpreted as UTC" means for parsed date strings). -/
def daysFromCivil (y m d : Nat) : Nat :=
  let y' := if m ≤ 2 then y - 1 else y
  let era := y' / 400
  let yoe := y' % 400
  let mp := if 2 < m then m - 3 else m + 9
  let doy := (153 * mp + 2) / 5 + d - 1
  let doe := 365 * yoe + yoe / 4 - yoe / 100 + doy
  era * 146097 + doe - 719468

/-- The epoch milliseconds of a civil date-time read as UTC. -/
def utcMillis (y mo d h mi s : Nat) : Nat :=
  daysFromCivil y mo d * 86400000 + h * 3600000 + mi * 60000 + s * 1000

/-- A decimal digit character. -/
def isoDigit (n : Nat) : Char := Char.ofNat (48 + n % 10)

theorem isoDigit_toNat (n : Nat) : (isoDigit n).toNat = 48 + n % 10 := by
  have hv : (48 + n % 10).isValidChar := Or.inl (by omega)
  simp only [isoDigit, Char.ofNat, hv, dite_true, Char.ofNatAux, Char.toNat, UInt32.toNat]
  simp [BitVec.toNat_ofNatLt]

/-- Two-digit zero-padded rendering. -/
def pad2 (n : Nat) : List Char := [isoDigit (n / 10), isoDigit n]

/-- Three-digit zero-padded rendering. -/
def pad3 (n : Nat) : List Char := [isoDigit (n / 100), isoDigit (n / 10), isoDigit n]

/-- Four-digit zero-padded rendering. -/
def pad4 (n : Nat) : List Char :=
  [isoDigit (n / 1000), isoDigit (n / 100), isoDigit (n / 10), isoDigit n]

/-- `Date.prototype.toISOString` on an epoch-millisecond instant:
`YYYY-MM-DDTHH:mm:ss.sssZ`. -/
def toISOString (n : Nat) : String :=
  let p := civilFromDays (n / 86400000)
  String.mk
    (pad4 p.1 ++ '-' :: pad2 p.2.1 ++ '-' :: pad2 p.2.2 ++
     'T' :: pad2 (n % 86400000 / 3600000) ++ ':' :: pad2 (n % 3600000 / 60000) ++
     ':' :: pad2 (n % 60000 / 1000) ++ '.' :: pad3 (n % 1000) ++ ['Z'])

/-- Digit test on the code point. -/
def isDigitB (c : Char) : Bool := decide (48 ≤ c.toNat ∧ c.toNat ≤ 57)

/-- Digit value of a character. -/
def digVal (c : Char) : Nat := c.toNat - 48

/-- Checks that a string is a well-formed ISO-8601 UTC instant of the exact
shape `YYYY-MM-DDTHH:mm:ss.sssZ` with in-range month, day, hour, minute and
second fields. -/
def isValidISO (s : String) : Bool :=
  match s.data with
  | [y1, y2, y3, y4, a1, m1, m2, a2, d1, d2, t, h1, h2, b1, i1, i2, b2, s1, s2, dt,
     x1, x2, x3, z] =>
    isDigitB y1 && isDigitB y2 && isDigitB y3 && isDigitB y4 &&
    isDigitB m1 && isDigitB m2 && isDigitB d1 && isDigitB d2 &&
    isDigitB h1 && isDigitB h2 && isDigitB i1 && isDigitB i2 &&
    isDigitB s1 && isDigitB s2 && isDigitB x1 && isDigitB x2 && isDigitB x3 &&
    (a1 = '-' : Bool) && (a2 = '-' : Bool) && (t = 'T' : Bool) &&
    (b1 = ':' : Bool) && (b2 = ':' : Bool) && (dt = '.' : Bool) && (z = 'Z' : Bool) &&
    (let mo := 10 * digVal m1 + digVal m2
     let dy := 10 * digVal d1 + digVal d2
     let hr := 10 * digVal h1 + digVal h2
     let mi := 10 * digVal i1 + digVal i2
     let sc := 10 * digVal s1 + digVal s2
     decide (1 ≤ mo ∧ mo ≤ 12 ∧ 1 ≤ dy ∧ dy ≤ 31 ∧ hr ≤ 23 ∧ mi ≤ 59 ∧ sc ≤ 59))
  | _ => false

/-- Instant bound below which `toISOString` stays within 4-digit years:
the first millisecond of year 10000. -/
def isoMax : Nat := 253402300800000

theorem civilFromDays_bounds (z : Nat) (hz : z ≤ 2932896) :
    1 ≤ (civilFromDays z).2.1 ∧ (civilFromDays z).2.1 ≤ 12 ∧
    1 ≤ (civilFromDays z).2.2 ∧ (civilFromDays z).2.2 ≤ 31 ∧
    (civilFromDays z).1 ≤ 9999 := by
  unfold civilFromDays
  dsimp only
  split <;> split <;> omega

theorem isValidISO_toISOString (n : Nat) (hn : n < isoMax) :
    isValidISO (toISOString n) = true := by
  have hdays : n / 86400000 ≤ 2932896 := by
    unfold isoMax at hn; omega
  have hb := civilFromDays_bounds (n / 86400000) hdays
  rcases hb with ⟨hm1, hm2, hd1, hd2, hy⟩
  unfold toISOString isValidISO
  simp only [pad4, pad2, pad3, List.cons_append, List.nil_append, String.mk]
  simp only [isDigitB, digVal, isoDigit_toNat, Bool.and_eq_true, decide_eq_true_eq]
  repeat' apply And.intro
  all_goals first
    | trivial
    | omega

/-! ## The date normalizer `formatDate` (src/lib/rss.server.ts lines 774-822)

The native `Date` string parser is implementation-defined outside the ISO
forms, so it enters the model as a parameter `native : String → Option Nat`
(`none` models `NaN`).  The two normalization regexes of the source are
implemented as exact shape checks. -/

/-- The regex `^\d{4}-\d{2}-\d{2}T\d{2}:\d{2}:\d{2}$` (bare ISO date-time
without a timezone suffix). -/
def isBareDateTime (s : String) : Bool :=
  match s.data with
  | [y1, y2, y3, y4, a1, m1, m2, a2, d1, d2, t, h1, h2, b1, i1, i2, b2, s1, s2] =>
    isDigitB y1 && isDigitB y2 && isDigitB y3 && isDigitB y4 &&
    isDigitB m1 && isDigitB m2 && isDigitB d1 && isDigitB d2 &&
    isDigitB h1 && isDigitB h2 && isDigitB i1 && isDigitB i2 &&
    isDigitB s1 && isDigitB s2 &&
    (a1 = '-' : Bool) && (a2 = '-' : Bool) && (t = 'T' : Bool) &&
    (b1 = ':' : Bool) && (b2 = ':' : Bool)
  | _ => false

/-- The regex `^\d{4}-\d{2}-\d{2}$` (bare date-only string). -/
def isBareDate (s : String) : Bool :=
  match s.data with
  | [y1, y2, y3, y4, a1, m1, m2, a2, d1, d2] =>
    isDigitB y1 && isDigitB y2 && isDigitB y3 && isDigitB y4 &&
    isDigitB m1 && isDigitB m2 && isDigitB d1 && isDigitB d2 &&
    (a1 = '-' : Bool) && (a2 = '-' : Bool)
  | _ => false

/-- ECMA-262 parse of a `YYYY-MM-DDTHH:MM:SSZ` string (UTC because of the
`Z` designator).  This is the specified part of the native parser; it is
used to instantiate the abstract `native` parameter in witnesses. -/
def parseISOZ (s : String) : Option Nat :=
  match s.data with
  | [y1, y2, y3, y4, a1, m1, m2, a2, d1, d2, t, h1, h2, b1, i1, i2, b2, s1, s2, z] =>
    if isDigitB y1 && isDigitB y2 && isDigitB y3 && isDigitB y4 &&
       isDigitB m1 && isDigitB m2 && isDigitB d1 && isDigitB d2 &&
       isDigitB h1 && isDigitB h2 && isDigitB i1 && isDigitB i2 &&
       isDigitB s1 && isDigitB s2 &&
       (a1 = '-' : Bool) && (a2 = '-' : Bool) && (t = 'T' : Bool) &&
       (b1 = ':' : Bool) && (b2 = ':' : Bool) && (z = 'Z' : Bool) then
      let y := 1000 * digVal y1 + 100 * digVal y2 + 10 * digVal y3 + digVal y4
      let mo := 10 * digVal m1 + digVal m2
      let dy := 10 * digVal d1 + digVal d2
      let hr := 10 * digVal h1 + digVal h2
      let mi := 10 * digVal i1 + digVal i2
      let sc := 10 * digVal s1 + digVal s2
      if 1 ≤ mo && mo ≤ 12 && 1 ≤ dy && dy ≤ 31 && hr ≤ 23 && mi ≤ 59 && sc ≤ 59 &&
         1970 ≤ y then
        some (utcMillis y mo dy hr mi sc)
      else none
    else none
  | _ => none

/-- `formatDate` applied to a string input (the body after the input has been
coerced to `dateString`): normalize bare ISO date-times by appending `Z`,
expand bare dates to midnight UTC, parse, and fall back to the current
instant on an invalid result. -/
def formatDateStr (native : String → Option Nat) (now : Nat) (dateString : String) :
    String :=
  let n1 := if isBareDateTime dateString then dateString ++ "Z" else dateString
  let n2 := if isBareDate dateString then dateString ++ "T00:00:00Z" else n1
  match native n2 with
  | some t => toISOString t
  | none => toISOString now

/-- The `unknown` input of `formatDate`: a string, a `Date` instance, or any
other value (carried as its `String(dateStr || '')` coercion). -/
inductive DateArg where
  | strArg (s : String)
  | dateArg (ms : Nat)
  | otherArg (s : String)

/-- `formatDate` (src/lib/rss.server.ts lines 774-822): coerce the input to a
string, then normalize/parse/fallback. -/
def formatDate (native : String → Option Nat) (now : Nat) : DateArg → String
  | .strArg s => formatDateStr native now s
  | .dateArg ms => formatDateStr native now (toISOString ms)
  | .otherArg s => formatDateStr native now s

/-! ## JavaScript values from the XML parser

`fast-xml-parser` hands the code dynamically-typed trees; the code probes
them with `typeof`, `Array.isArray`, truthiness and key-presence checks.
The trees are modelled by a JSON-like inductive, and each JavaScript idiom
by a small total function. -/

/-- A parsed-XML JavaScript value: string, number, object (ordered key-value
fields, first occurrence wins on lookup), array, or `null`. -/
inductive JVal where
  | str (s : String)
  | num (n : Int)
  | obj (fields : List (String × JVal))
  | arr (elems : List JVal)
  | nul
deriving Repr

/-- Property access `v[k]`; `none` models `undefined`. -/
def jget (v : JVal) (k : String) : Option JVal :=
  match v with
  | .obj fs =>
    match fs.find? (fun p => p.1 == k) with
    | some p => some p.2
    | none => none
  | _ => none

/-- JavaScript truthiness of a possibly-`undefined` value. -/
def jTruthy : Option JVal → Bool
  | none => false
  | some (.str s) => decide (s ≠ "")
  | some (.num n) => decide (n ≠ 0)
  | some (.obj _) => true
  | some (.arr _) => true
  | some .nul => false

/-- `typeof v === 'string'`. -/
def jIsStr : Option JVal → Bool
  | some (.str _) => true
  | _ => false

/-- `typeof v === 'object' && v !== null` (arrays included). -/
def jIsObjLike : Option JVal → Bool
  | some (.obj _) => true
  | some (.arr _) => true
  | _ => false

/-- `Array.isArray(v)`. -/
def jIsArr : Option JVal → Bool
  | some (.arr _) => true
  | _ => false

/-- Strict equality of a value against a string literal. -/
def jStrEq (v : Option JVal) (s : String) : Bool :=
  match v with
  | some (.str t) => t == s
  | _ => false

mutual

/-- `String(v)` for a defined value. -/
def jsStringOf : JVal → String
  | .str s => s
  | .num n => toString n
  | .nul => "null"
  | .obj _ => "[object Object]"
  | .arr l => jsStringArr l

/-- `Array.prototype.toString` (elements joined by commas; `null` renders
empty inside the join). -/
def jsStringArr : List JVal → String
  | [] => ""
  | [x] => jsStringItem x
  | x :: xs => jsStringItem x ++ "," ++ jsStringArr xs

/-- One joined element of an array rendering. -/
def jsStringItem : JVal → String
  | .nul => ""
  | .str s => s
  | .num n => toString n
  | .obj _ => "[object Object]"
  | .arr l => jsStringArr l

end

/-- `String(v)` where `v` may be `undefined`. -/
def jsStringOfOpt : Option JVal → String
  | none => "undefined"
  | some v => jsStringOf v

/-! ### Regex shims

The regular expressions of `extractImage`/`fetchAndParseFeed` implemented as
explicit scanners over character lists (case-insensitive where the source
uses the `i` flag). -/

/-- Case-insensitive prefix test of a (lowercase) pattern at a position. -/
def ciPrefix (pat : String) (l : List Char) : Bool :=
  pat.data.isPrefixOf ((l.take pat.data.length).map Char.toLower)

/-- Does `pat` occur at this position followed by end-of-string or `?`
(the `($|\?)` tail of the extension regexes)? -/
def extHere (pat : String) (l : List Char) : Bool :=
  pat.data.isPrefixOf l &&
  (match l.drop pat.data.length with
   | [] => true
   | c :: _ => c = '?')

/-- Scan all positions for one of the given extension patterns followed by
end or `?`. -/
def scanExt (pats : List String) : List Char → Bool
  | [] => pats.any (fun p => extHere p [])
  | c :: rest => pats.any (fun p => extHere p (c :: rest)) || scanExt pats rest

/-- The regex `\.(mp3|m4a|wav|ogg|flac)($|\?)` with the `i` flag. -/
def hasAudioExt (url : String) : Bool :=
  scanExt [".mp3", ".m4a", ".wav", ".ogg", ".flac"] (url.data.map Char.toLower)

/-- The regex `\.(jpg|jpeg|png|gif|webp|svg)($|\?)` with the `i` flag. -/
def hasImageExt (url : String) : Bool :=
  scanExt [".jpg", ".jpeg", ".png", ".gif", ".webp", ".svg"] (url.data.map Char.toLower)

/-- After an image-path word: `s?\/` — an optional `s` then a slash. -/
def imageWordTail : List Char → Bool
  | '/' :: _ => true
  | 's' :: '/' :: _ => true
  | _ => false

/-- One position of the regex `\/(image|img|photo|thumbnail|cover|banner|logo)s?\/`. -/
def imageSegHere (l : List Char) : Bool :=
  match l with
  | '/' :: rest =>
    ["image", "img", "photo", "thumbnail", "cover", "banner", "logo"].any
      (fun w => w.data.isPrefixOf rest && imageWordTail (rest.drop w.data.length))
  | _ => false

/-- Scan for the image-path-segment regex (case-insensitive). -/
def scanImageSeg : List Char → Bool
  | [] => false
  | c :: rest => imageSegHere (c :: rest) || scanImageSeg rest

/-- The regex `\/(image|img|photo|thumbnail|cover|banner|logo)s?\/` with `i`. -/
def hasImageSeg (url : String) : Bool := scanImageSeg (url.data.map Char.toLower)

/-- Substring search. -/
def containsSub : List Char → List Char → Bool
  | l, pat =>
    if pat.isPrefixOf l then true
    else match l with
      | [] => false
      | _ :: rest => containsSub rest pat

/-- The regex `cdn(-cgi)?\/image` with the `i` flag. -/
def hasCdnImage (url : String) : Bool :=
  containsSub (url.data.map Char.toLower) "cdn/image".data ||
  containsSub (url.data.map Char.toLower) "cdn-cgi/image".data

/-- `String.prototype.startsWith` (case-sensitive, as in the source's
`startsWith('audio/')` / `startsWith('image/')` checks). -/
def jsStartsWith (s pre : String) : Bool := pre.data.isPrefixOf s.data

/-- A quote character (`"` or `'`). -/
def isQuoteChar (c : Char) : Bool := c.toNat = 34 || c.toNat = 39

/-! ## `getTextContent` and `getLink` (src/lib/rss.server.ts lines 437-487) -/

/-- `getTextContent`: falsy inputs give `''`; strings pass through; objects
with a `#text` key give `String(nodeObj['#text'] || '')`; anything else is
`String(node || '')`. -/
def getTextContent (node : Option JVal) : String :=
  if jTruthy node = false then ""
  else match node with
    | some (.str s) => s
    | some v =>
      if jIsObjLike (some v) then
        match jget v "#text" with
        | some tv => if jTruthy (some tv) then jsStringOf tv else ""
        | none => jsStringOf v
      else jsStringOf v
    | none => ""

/-- The predicate of the `links.find` callback: no `attr`, or no `@_rel`
attribute, or `rel=alternate`. -/
def isMainLink (l : JVal) : Bool :=
  if jTruthy (jget l "attr") = false then true
  else
    let attr := (jget l "attr").getD .nul
    !(jTruthy (jget attr "@_rel")) || jStrEq (jget attr "@_rel") "alternate"

/-- Extract the href of a single link candidate: `attr/@_href` when the
`attr` wrapper is present (key-presence check), else `String(link)`. -/
def linkCandidate (l : JVal) : String :=
  if jTruthy (jget l "attr") then
    let attr := (jget l "attr").getD .nul
    match jget attr "@_href" with
    | some hv => jsStringOf hv
    | none => jsStringOf l
  else jsStringOf l

/-- `getLink`: plain string links, object links with `attr/@_href`, and Atom
link arrays preferring `rel=alternate` (or the first link). -/
def getLink (node : JVal) : String :=
  match jget node "link" with
  | some (.str s) => s
  | some lv =>
    if jTruthy (some lv) && jIsObjLike (some lv) && !(jIsArr (some lv)) then
      if jTruthy (jget lv "attr") && jIsObjLike (jget lv "attr") then
        let attr := (jget lv "attr").getD .nul
        match jget attr "@_href" with
        | some hv => jsStringOf hv
        | none => ""
      else ""
    else match lv with
      | .arr links =>
        (match links.find? isMainLink with
         | some mainLink => linkCandidate mainLink
         | none =>
           match links with
           | first :: _ => linkCandidate first
           | [] => "")
      | _ => ""
  | none => ""

/-! ## `extractImage` (src/lib/rss.server.ts lines 490-771)

Each early-`return` block of the source is one step returning
`Option String`; the steps are chained in source order.  The enclosing
`try`/`catch` (which returns `null` on an internal error) has no effect in
the total model. -/

/-- Step 1: the `itunes:image` block. -/
def itunesImageStep (item : JVal) : Option String :=
  match jget item "itunes:image" with
  | none => none
  | some v =>
    if jTruthy (some v) = false then none
    else
      let fromObj : Option String :=
        if jIsObjLike (some v) then
          if jTruthy (jget v "@_href") then some (jsStringOfOpt (jget v "@_href"))
          else if jTruthy (jget v "attr") && jIsObjLike (jget v "attr") &&
                  jTruthy (jget ((jget v "attr").getD .nul) "@_href") then
            some (jsStringOfOpt (jget ((jget v "attr").getD .nul) "@_href"))
          else if jTruthy (jget v "url") then some (jsStringOfOpt (jget v "url"))
          else if jTruthy (jget v "href") then some (jsStringOfOpt (jget v "href"))
          else none
        else none
      match fromObj with
      | some u => some u
      | none =>
        match v with
        | .str s =>
          if jsStartsWith s "http://" || jsStartsWith s "https://" then some s else none
        | _ => none

/-- Step 2: a flattened `itunes:image:href` string field. -/
def itunesHrefStep (item : JVal) : Option String :=
  match jget item "itunes:image:href" with
  | some (.str s) => if decide (s ≠ "") then some s else none
  | _ => none

/-- One `media:content` array element: return its url when the element is
image-typed (`medium === 'image'` or a `type` starting with `image/`). -/
def mediaContentElem (media : JVal) : Option String :=
  if jIsObjLike (some media) then
    if jTruthy (jget media "attr") && jIsObjLike (jget media "attr") then
      let attr := (jget media "attr").getD .nul
      if jStrEq (jget attr "@_medium") "image" ||
         (jTruthy (jget attr "@_type") &&
          jsStartsWith (jsStringOfOpt (jget attr "@_type")) "image/") then
        if jTruthy (jget attr "@_url") then some (jsStringOfOpt (jget attr "@_url"))
        else none
      else none
    else none
  else none

/-- The `media:content` array loop: first image-typed element's url. -/
def mediaContentLoop : List JVal → Option String
  | [] => none
  | media :: rest =>
    match mediaContentElem media with
    | some u => some u
    | none => mediaContentLoop rest

/-- Step 3: the `media:content` block. -/
def mediaContentStep (item : JVal) : Option String :=
  match jget item "media:content" with
  | none => none
  | some v =>
    if jTruthy (some v) = false then none
    else match v with
      | .arr l => mediaContentLoop l
      | _ =>
        if jIsObjLike (some v) then
          if jTruthy (jget v "attr") && jIsObjLike (jget v "attr") then
            let attr := (jget v "attr").getD .nul
            if jTruthy (jget attr "@_url") then
              if jStrEq (jget attr "@_medium") "image" ||
                 (jTruthy (jget attr "@_type") &&
                  jsStartsWith (jsStringOfOpt (jget attr "@_type")) "image/") then
                some (jsStringOfOpt (jget attr "@_url"))
              else none
            else none
          else none
        else none

/-- url of a thumbnail object's `attr` wrapper, when present. -/
def thumbUrl (th : Option JVal) : Option String :=
  if jTruthy th && jTruthy (jget (th.getD .nul) "attr") &&
     jIsObjLike (jget (th.getD .nul) "attr") then
    let attr := (jget (th.getD .nul) "attr").getD .nul
    if jTruthy (jget attr "@_url") then some (jsStringOfOpt (jget attr "@_url")) else none
  else none

/-- Step 4: the `media:thumbnail` block (array form looks only at the first
element). -/
def mediaThumbStep (item : JVal) : Option String :=
  match jget item "media:thumbnail" with
  | none => none
  | some v =>
    if jTruthy (some v) = false then none
    else match v with
      | .arr l => thumbUrl l.head?
      | _ => if jIsObjLike (some v) then thumbUrl (some v) else none

/-- The common URL heuristics of the enclosure block: image extension,
image-related path segment, or CDN image-proxy path. -/
def urlLooksImage (url : String) : Bool :=
  hasImageExt url || hasImageSeg url || hasCdnImage url

/-- First enclosure-array loop: return an `attr/@_url` whose `attr/@_type`
starts with `image/`, skipping `audio/`-typed elements. -/
def encLoop1 : List JVal → Option String
  | [] => none
  | enc :: rest =>
    let here : Option String :=
      if jIsObjLike (some enc) && jTruthy (jget enc "attr") &&
         jIsObjLike (jget enc "attr") then
        let attr := (jget enc "attr").getD .nul
        if jTruthy (jget attr "@_type") &&
           jsStartsWith (jsStringOfOpt (jget attr "@_type")) "audio/" then none
        else if jTruthy (jget attr "@_type") &&
                jsStartsWith (jsStringOfOpt (jget attr "@_type")) "image/" then
          if jTruthy (jget attr "@_url") then some (jsStringOfOpt (jget attr "@_url"))
          else none
        else none
      else none
    match here with
    | some u => some u
    | none => encLoop1 rest

/-- Second enclosure-array loop: any `attr/@_url` passing the URL heuristics,
skipping audio-typed and audio-extension URLs. -/
def encLoop2 : List JVal → Option String
  | [] => none
  | enc :: rest =>
    let here : Option String :=
      if jIsObjLike (some enc) && jTruthy (jget enc "attr") &&
         jIsObjLike (jget enc "attr") then
        let attr := (jget enc "attr").getD .nul
        if jTruthy (jget attr "@_url") then
          let url := jsStringOfOpt (jget attr "@_url")
          if jTruthy (jget attr "@_type") &&
             jsStartsWith (jsStringOfOpt (jget attr "@_type")) "audio/" then none
          else if hasAudioExt url then none
          else if urlLooksImage url then some url
          else none
        else none
      else none
    match here with
    | some u => some u
    | none => encLoop2 rest

/-- Single (non-array) enclosure: the `attr`-wrapper branch. -/
def singleEncAttr (enc : JVal) : Option String :=
  if jTruthy (jget enc "attr") && jIsObjLike (jget enc "attr") then
    let attr := (jget enc "attr").getD .nul
    if jTruthy (jget attr "@_type") &&
       jsStartsWith (jsStringOfOpt (jget attr "@_type")) "audio/" then none
    else if jTruthy (jget attr "@_url") then
      let url := jsStringOfOpt (jget attr "@_url")
      if hasAudioExt url then none
      else if jTruthy (jget attr "@_type") &&
              jsStartsWith (jsStringOfOpt (jget attr "@_type")) "image/" then some url
      else if urlLooksImage url then some url
      else none
    else none
  else none

/-- Single enclosure: the direct `@_url`/`@_type` branch. -/
def singleEncDirect (enc : JVal) : Option String :=
  if jTruthy (jget enc "@_url") then
    let url := jsStringOfOpt (jget enc "@_url")
    if jTruthy (jget enc "@_type") &&
       jsStartsWith (jsStringOfOpt (jget enc "@_type")) "audio/" then none
    else if hasAudioExt url then none
    else if jTruthy (jget enc "@_type") &&
            jsStartsWith (jsStringOfOpt (jget enc "@_type")) "image/" then some url
    else if urlLooksImage url then some url
    else none
  else none

/-- Single enclosure: the plain `url` child branch (no type check in the
source; the URL is filtered by extension/path heuristics only). -/
def singleEncUrlField (enc : JVal) : Option String :=
  if jTruthy (jget enc "url") then
    let url := jsStringOfOpt (jget enc "url")
    if hasAudioExt url then none
    else if urlLooksImage url then some url
    else none
  else none

/-- Step 5: the enclosure block. -/
def enclosureStep (item : JVal) : Option String :=
  match jget item "enclosure" with
  | none => none
  | some v =>
    if jTruthy (some v) = false then none
    else match v with
      | .arr encs =>
        (match encLoop1 encs with
         | some u => some u
         | none => encLoop2 encs)
      | _ =>
        if jIsObjLike (some v) then
          match singleEncAttr v with
          | some u => some u
          | none =>
            match singleEncDirect v with
            | some u => some u
            | none => singleEncUrlField v
        else none

/-! ### The `<img src=...>` content patterns (step 6)

The three patterns are implemented with JavaScript regex semantics: leftmost
match, greedy `[^>]+` with backtracking (largest split first), captures as
maximal runs bounded by the closing character class. -/

/-- At this position: `src=["']([^"']+)["']` — `src=` (case-insensitive), a
quote, a nonempty maximal run of non-quote characters, then a closing quote
(either kind). -/
def srcQuotedCapture (r : List Char) : Option String :=
  if ciPrefix "src=" r then
    match r.drop 4 with
    | q :: rest2 =>
      if isQuoteChar q then
        let run := rest2.takeWhile (fun c => !(isQuoteChar c))
        if run.length > 0 && !(rest2.drop run.length).isEmpty then
          some (String.mk run)
        else none
      else none
    | [] => none
  else none

/-- At this position: `src=([^ >]+)` — `src=` then a nonempty maximal run of
non-space non-`>` characters. -/
def srcBareCapture (r : List Char) : Option String :=
  if ciPrefix "src=" r then
    let run := (r.drop 4).takeWhile (fun c => !(c = ' ' || c = '>'))
    if run.length > 0 then some (String.mk run) else none
  else none

/-- Backtracking over the greedy `[^>]+`: try splits `k, k-1, …, 1`. -/
def tryBacktrack (cap : List Char → Option String) (rest : List Char) : Nat → Option String
  | 0 => none
  | k + 1 =>
    match cap (rest.drop (k + 1)) with
    | some c => some c
    | none => tryBacktrack cap rest k

/-- Length of the maximal `'>'`-free prefix. -/
def nonGtLen (l : List Char) : Nat := (l.takeWhile (fun c => !(c = '>'))).length

/-- One position of `<img[^>]+src=…`: a case-insensitive `<img`, then the
greedy gap, then the given `src=` capture form. -/
def imgPatternHere (cap : List Char → Option String) (l : List Char) : Option String :=
  if ciPrefix "<img" l then
    let rest := l.drop 4
    tryBacktrack cap rest (nonGtLen rest)
  else none

/-- Leftmost-match scan of a positional matcher. -/
def scanFirst (f : List Char → Option String) : List Char → Option String
  | [] => f []
  | c :: rest =>
    match f (c :: rest) with
    | some u => some u
    | none => scanFirst f rest

/-- First match of `/<img[^>]+src=["']([^"']+)["']/i`. -/
def imgPattern1 (content : String) : Option String :=
  scanFirst (imgPatternHere srcQuotedCapture) content.data

/-- First match of `/<img[^>]+src=([^ >]+)/i`. -/
def imgPattern2 (content : String) : Option String :=
  scanFirst (imgPatternHere srcBareCapture) content.data

/-- At this position: `src=["']([^"']+\.(?:jpg|jpeg|png|gif|webp))["']` —
the quoted run must end with an image extension. -/
def srcImageExtCapture (r : List Char) : Option String :=
  match srcQuotedCapture r with
  | some c =>
    if [".jpg", ".jpeg", ".png", ".gif", ".webp"].any
         (fun e => e.data.isSuffixOf (c.data.map Char.toLower)) then some c
    else none
  | none => none

/-- First match of `/src=["']([^"']+\.(?:jpg|jpeg|png|gif|webp))["']/i`. -/
def imgPattern3 (content : String) : Option String :=
  scanFirst srcImageExtCapture content.data

/-- Try the three patterns in order on one content string; a capture that is
a `data:` URL moves on to the next pattern. -/
def contentImgOf (content : String) : Option String :=
  let tryPat : Option String → Option String := fun m =>
    match m with
    | some c => if jsStartsWith c "data:" then none else some c
    | none => none
  match tryPat (imgPattern1 content) with
  | some u => some u
  | none =>
    match tryPat (imgPattern2 content) with
    | some u => some u
    | none => tryPat (imgPattern3 content)

/-- Step 6: scan `content`, `description`, `summary`, `content:encoded` for
an inline `<img>` URL. -/
def contentImgStep (item : JVal) : Option String :=
  let fieldTry : String → Option String := fun field =>
    match jget item field with
    | some (.str s) => if s.length > 0 then contentImgOf s else none
    | _ => none
  match fieldTry "content" with
  | some u => some u
  | none =>
    match fieldTry "description" with
    | some u => some u
    | none =>
      match fieldTry "summary" with
      | some u => some u
      | none => fieldTry "content:encoded"

/-- Step 7: the `channelImage` string attached to the item by
`fetchAndParseFeed`. -/
def channelImageStep (item : JVal) : Option String :=
  match jget item "channelImage" with
  | some (.str s) => if decide (s ≠ "") then some s else none
  | _ => none

/-- Step 8: a nested `channel` object's standard image or `itunes:image`. -/
def nestedChannelStep (item : JVal) : Option String :=
  if jTruthy (jget item "channel") && jIsObjLike (jget item "channel") then
    let ch := (jget item "channel").getD .nul
    let fromImage : Option String :=
      if jTruthy (jget ch "image") && jIsObjLike (jget ch "image") then
        let image := (jget ch "image").getD .nul
        if jTruthy (jget image "url") then some (jsStringOfOpt (jget image "url"))
        else none
      else none
    match fromImage with
    | some u => some u
    | none =>
      if jTruthy (jget ch "itunes:image") && jIsObjLike (jget ch "itunes:image") then
        let it := (jget ch "itunes:image").getD .nul
        if jTruthy (jget it "attr") && jIsObjLike (jget it "attr") then
          let attr := (jget it "attr").getD .nul
          if jTruthy (jget attr "@_href") then some (jsStringOfOpt (jget attr "@_href"))
          else none
        else none
      else none
  else none

/-- `extractImage` (src/lib/rss.server.ts lines 490-771): the eight
prioritized steps chained in source order. -/
def extractImage (item : JVal) : Option String :=
  match itunesImageStep item with
  | some u => some u
  | none =>
  match itunesHrefStep item with
  | some u => some u
  | none =>
  match mediaContentStep item with
  | some u => some u
  | none =>
  match mediaThumbStep item with
  | some u => some u
  | none =>
  match enclosureStep item with
  | some u => some u
  | none =>
  match contentImgStep item with
  | some u => some u
  | none =>
  match channelImageStep item with
  | some u => some u
  | none => nestedChannelStep item

/-! ## The feed parse pipeline (src/lib/rss.server.ts lines 225-434)

`fetchAndParseFeed` after `parser.parse` has produced a tree: dialect
detection, channel-level extraction, per-item processing with per-item error
isolation, and the validity post-filter.  The network fetch, the raw-XML
Libsyn image harvest, the per-item `try`/`catch` trigger, and
`Math.random()` are oracles. -/

/-- A normalized feed item (the `RSSItem` interface). -/
structure RSSItem where
  title : String
  description : String
  link : String
  guid : String
  pubDate : String
  image : Option String
  feedUrl : String
deriving Repr, DecidableEq

/-- A parsed feed (the `RSSFeed` interface). -/
structure RSSFeed where
  title : String
  description : String
  link : String
  items : List RSSItem
deriving Repr, DecidableEq

/-- `createFallbackFeed` (lines 225-243): a synthetic single-item error feed. -/
def createFallbackFeed (url : String) (errorMessage : String) (now : Nat) : RSSFeed :=
  { title := "Error fetching feed from " ++ url
    description := "There was an error fetching the feed: " ++ errorMessage
    link := url
    items := [{
      title := "Error fetching feed"
      description := "There was an error fetching the feed from " ++ url ++ ": " ++
        errorMessage
      link := url
      guid := "error-" ++ toString now
      pubDate := toISOString now
      image := none
      feedUrl := url }] }

/-- JavaScript `a || b` on possibly-undefined values. -/
def jsOr (a b : Option JVal) : Option JVal := if jTruthy a then a else b

/-- JavaScript `a || b` on nullable strings (empty strings are falsy). -/
def jsOrStr (a b : Option String) : Option String :=
  match a with
  | some s => if decide (s ≠ "") then some s else b
  | none => b

/-- Property assignment `v[k] = x` (silent no-op on primitives). -/
def objSetField (v : JVal) (k : String) (x : JVal) : JVal :=
  match v with
  | .obj fs =>
    if fs.any (fun p => p.1 == k) then
      .obj (fs.map (fun p => if p.1 == k then (k, x) else p))
    else .obj (fs ++ [(k, x)])
  | other => other

/-- Channel-level fallback image (lines 308-338): `itunes:image` direct
`@_href`, then nested `attr/@_href`, then the standard `image.url`. -/
def channelImageOf (channel : JVal) : Option String :=
  let fromItunes : Option String :=
    if jTruthy (jget channel "itunes:image") then
      if jIsObjLike (jget channel "itunes:image") then
        let it := (jget channel "itunes:image").getD .nul
        if jTruthy (jget it "@_href") then some (jsStringOfOpt (jget it "@_href"))
        else if jTruthy (jget it "attr") && jIsObjLike (jget it "attr") then
          let attr := (jget it "attr").getD .nul
          if jTruthy (jget attr "@_href") then some (jsStringOfOpt (jget attr "@_href"))
          else none
        else none
      else none
    else none
  match fromItunes with
  | some u => some u
  | none =>
    if jTruthy (jget channel "image") then
      if jIsObjLike (jget channel "image") then
        let image := (jget channel "image").getD .nul
        if jTruthy (jget image "url") then some (jsStringOfOpt (jget image "url"))
        else none
      else none
    else none

/-- Coerce the `pubDate`-candidate value to the `formatDate` argument. -/
def dateArgOf (v : Option JVal) : DateArg :=
  match v with
  | some (.str s) => .strArg s
  | w => .otherArg (if jTruthy w then jsStringOfOpt w else "")

/-- Per-item processing (lines 366-413).  `fails i` models the per-item
`try` throwing (yielding the minimal placeholder item), `rand i` the
`Math.random()` component of the placeholder guid, `libsynImages` the
raw-XML Libsyn image harvest keyed by guid. -/
def processItem (url : String) (native : String → Option Nat) (now : Nat)
    (channelImage : Option String) (isLibsyn : Bool)
    (libsynImages : String → Option String) (fails : Nat → Bool) (rand : Nat → Nat)
    (i : Nat) (item : JVal) : RSSItem :=
  if fails i then
    { title := "Error processing item"
      description := ""
      link := ""
      guid := "error-" ++ toString now ++ "-" ++ toString (rand i)
      pubDate := toISOString now
      image := jsOrStr channelImage none
      feedUrl := url }
  else
    let item1 := match channelImage with
      | some ci => if decide (ci ≠ "") then objSetField item "channelImage" (.str ci)
                   else item
      | none => item
    let itemGuid := getTextContent
      (jsOr (jget item1 "guid") (jsOr (jget item1 "id") (jget item1 "link")))
    let item2 :=
      if isLibsyn then
        match libsynImages itemGuid with
        | some u =>
          if jTruthy (jget item1 "itunes:image") = false then
            objSetField item1 "itunes:image" (.obj [("@_href", .str u)])
          else item1
        | none => item1
      else item1
    let itemImage := extractImage item2
    { title := getTextContent (jget item2 "title")
      description := getTextContent
        (jsOr (jget item2 "description")
          (jsOr (jget item2 "summary") (jsOr (jget item2 "content") (some (.str "")))))
      link := getLink item2
      guid := itemGuid
      pubDate := formatDate native now (dateArgOf
        (jsOr (jget item2 "pubDate")
          (jsOr (jget item2 "published")
            (jsOr (jget item2 "updated") (some (.str (toISOString now)))))))
      image := jsOrStr itemImage (jsOrStr channelImage none)
      feedUrl := url }

/-- The validity post-filter `Boolean(item.guid && item.title)`. -/
def validItem (it : RSSItem) : Bool := decide (it.guid ≠ "" ∧ it.title ≠ "")

/-- `x || []` followed by `.map`: `none` models the `TypeError` raised when a
truthy non-array reaches `.map`. -/
def parseItemsOf (v : Option JVal) : Option (List JVal) :=
  if jTruthy v = false then some []
  else match v with
    | some (.arr l) => some l
    | _ => none

/-- The parse phase of `fetchAndParseFeed` on an already-parsed tree (lines
282-428): dialect detection, channel extraction, item processing, filter;
a thrown `Unsupported feed format` or items `TypeError` propagates to the
enclosing catch which builds the fallback feed. -/
def processParsedFeed (url : String) (native : String → Option Nat) (now : Nat)
    (libsynImages : String → Option String) (fails : Nat → Bool) (rand : Nat → Nat)
    (result : JVal) : RSSFeed :=
  let isLibsyn := containsSub url.data "libsyn.com".data
  let picked : Option (JVal × Option JVal) :=
    if jTruthy (jget result "rss") &&
       jTruthy (jget ((jget result "rss").getD .nul) "channel") then
      some (((jget result "rss").getD .nul |> (jget · "channel")).getD .nul,
        jget (((jget result "rss").getD .nul |> (jget · "channel")).getD .nul) "item")
    else if jTruthy (jget result "feed") then
      some ((jget result "feed").getD .nul, jget ((jget result "feed").getD .nul) "entry")
    else none
  match picked with
  | none => createFallbackFeed url "Unsupported feed format" now
  | some (channel, itemsV) =>
    match parseItemsOf itemsV with
    | none => createFallbackFeed url "items.map is not a function" now
    | some items =>
      let channelImage := channelImageOf channel
      { title := getTextContent (jget channel "title")
        description := getTextContent
          (jsOr (jget channel "description")
            (jsOr (jget channel "subtitle") (some (.str ""))))
        link := getLink channel
        items := (items.mapIdx
            (processItem url native now channelImage isLibsyn libsynImages fails rand)
          ).filter validItem }

/-- The outcome of the fetch-plus-parse step as seen by the coordinator:
either a parsed feed (via `processParsedFeed`) or a thrown error (network
failure, timeout, non-2xx status, XML parse error). -/
inductive FetchOutcome where
  | success (feed : RSSFeed)
  | failure (msg : String)

/-- `fetchAndParseFeed` (lines 246-434) never rejects: any thrown error is
caught and converted into the synthetic fallback feed. -/
def fetchAndParseFeed (o : FetchOutcome) (url : String) (now : Nat) : RSSFeed :=
  match o with
  | .success f => f
  | .failure msg => createFallbackFeed url msg now

/-! ## The relational store and the cache coordinator
(src/lib/rss.server.ts lines 824-1129)

The MySQL store is a record of `rss_feeds`, `rss_entries` and `rss_locks`
rows.  Each `executeQuery`/`executeBatchTransaction` call is one store
operation that either applies its pure effect or throws, decided by the
`dbErr` oracle indexed by an operation counter; a batch transaction is a
single all-or-nothing operation.  The wall clock is the constant `now` of
the environment, and the `i`-th outbound fetch of a run is resolved by the
`net` oracle. -/

/-- A row of `rss_feeds`. -/
structure FeedRow where
  id : Nat
  feedUrl : String
  title : String
  lastFetched : Nat
  updatedAt : Nat
deriving Repr, DecidableEq

/-- A row of `rss_entries`. -/
structure EntryRow where
  feedId : Nat
  guid : String
  title : String
  link : String
  description : String
  pubDate : String
  image : Option String
  createdAt : Nat
deriving Repr, DecidableEq

/-- A row of `rss_locks`. -/
structure LockRow where
  lockKey : String
  expiresAt : Nat
deriving Repr, DecidableEq

/-- The store. -/
structure DB where
  feeds : List FeedRow
  entries : List EntryRow
  locks : List LockRow
  nextId : Nat
deriving Repr, DecidableEq

/-- The effect oracles of one coordinator run. -/
structure Env where
  now : Nat
  net : Nat → FetchOutcome
  dbErr : Nat → Bool
  native : String → Option Nat

/-- The run state threaded through a call: the store plus the outbound-fetch
and store-operation counters. -/
structure St where
  db : DB
  fetchCount : Nat
  opCount : Nat
deriving Repr

/-- `SELECT … FROM rss_feeds WHERE feed_url = ?`. -/
def dbFindFeed (db : DB) (url : String) : Option FeedRow :=
  db.feeds.find? (fun f => f.feedUrl == url)

/-- All `rss_entries` rows of a feed id, in insertion order. -/
def dbEntriesFor (db : DB) (fid : Nat) : List EntryRow :=
  db.entries.filter (fun e => e.feedId == fid)

/-- `SELECT … FROM rss_locks WHERE lock_key = ?`. -/
def dbFindLock (db : DB) (key : String) : Option LockRow :=
  db.locks.find? (fun l => l.lockKey == key)

/-- Descending publication-order relation of the `ORDER BY pub_date DESC`
read (lexicographic on the stored text). -/
def entryDescOrder (a b : EntryRow) : Prop := strLe b.pubDate a.pubDate = true

instance : DecidableRel entryDescOrder := fun a b =>
  inferInstanceAs (Decidable (strLe b.pubDate a.pubDate = true))

instance : IsTotal EntryRow entryDescOrder :=
  ⟨fun a b => (strLe_total b.pubDate a.pubDate).elim Or.inl Or.inr⟩

instance : IsTrans EntryRow entryDescOrder :=
  ⟨fun _ _ _ hab hbc => strLe_trans hbc hab⟩

/-- The store-level sort of `ORDER BY pub_date DESC`. -/
def sortEntriesDesc (l : List EntryRow) : List EntryRow :=
  List.insertionSort entryDescOrder l

/-- Run one store operation: count the attempt, then either throw (per the
`dbErr` oracle, leaving the store unchanged) or apply the operation. -/
def runOp {α : Type} (env : Env) (st : St) (f : DB → α × DB) : Except Unit α × St :=
  let st' : St := { st with opCount := st.opCount + 1 }
  if env.dbErr st.opCount then (Except.error (), st')
  else
    let r := f st.db
    (Except.ok r.1, { st' with db := r.2 })

/-- Operation: look a feed up by url. -/
def qFindFeed (url : String) (db : DB) : Option FeedRow × DB := (dbFindFeed db url, db)

/-- Operation: `INSERT INTO rss_feeds …` with `last_fetched = Date.now()`,
returning the assigned id. -/
def qInsertFeed (url title : String) (now : Nat) (db : DB) : Nat × DB :=
  (db.nextId,
   { db with
      feeds := db.feeds ++
        [{ id := db.nextId, feedUrl := url, title := title, lastFetched := now,
           updatedAt := now }]
      nextId := db.nextId + 1 })

/-- Operation: re-read `last_fetched` by feed url (the double-check). -/
def qFindLastFetched (url : String) (db : DB) : Option Nat × DB :=
  ((dbFindFeed db url).map (fun f => f.lastFetched), db)

/-- Operation: the atomic lock upsert
`INSERT … ON DUPLICATE KEY UPDATE … IF(expires_at < ?, …)`, returning the
MySQL affected-row count: 1 for a fresh insert, 2 for an overwritten expired
row, 0 when the existing unexpired row is left unchanged. -/
def qLockUpsert (key : String) (expiry now : Nat) (db : DB) : Nat × DB :=
  match dbFindLock db key with
  | none => (1, { db with locks := db.locks ++ [{ lockKey := key, expiresAt := expiry }] })
  | some r =>
    if r.expiresAt < now then
      let newLocks := db.locks.map (fun l =>
        if l.lockKey == key then { lockKey := key, expiresAt := expiry } else l)
      (2, { db with locks := newLocks })
    else (0, db)

/-- Operation: `DELETE FROM rss_locks WHERE lock_key = ?`. -/
def qLockDelete (key : String) (db : DB) : Unit × DB :=
  ((), { db with locks := db.locks.filter (fun l => !(l.lockKey == key)) })

/-- Operation: `SELECT guid FROM rss_entries WHERE feed_id = ?`. -/
def qEntryGuids (fid : Nat) (db : DB) : List String × DB :=
  ((dbEntriesFor db fid).map (fun e => e.guid), db)

/-- Bump a feed's `updated_at`/`last_fetched`. -/
def bumpFeed (fid : Nat) (now : Nat) (feeds : List FeedRow) : List FeedRow :=
  feeds.map (fun f => if f.id == fid then { f with lastFetched := now, updatedAt := now }
                      else f)

/-- Operation: `UPDATE rss_feeds SET updated_at = ?, last_fetched = ? WHERE id = ?`. -/
def qUpdateFeedTimestamps (fid : Nat) (now : Nat) (db : DB) : Unit × DB :=
  ((), { db with feeds := bumpFeed fid now db.feeds })

/-- Operation: the batch transaction — all chunked entry inserts plus the
trailing timestamp update, atomically. -/
def qInsertEntriesAndBump (fid : Nat) (rows : List EntryRow) (now : Nat) (db : DB) :
    Unit × DB :=
  ((), { db with entries := db.entries ++ rows, feeds := bumpFeed fid now db.feeds })

/-- Operation: `SELECT … FROM rss_entries WHERE feed_id = ? ORDER BY pub_date
DESC`. -/
def qReadEntriesSorted (fid : Nat) (db : DB) : List EntryRow × DB :=
  (sortEntriesDesc (dbEntriesFor db fid), db)

/-- One outbound fetch-plus-parse, resolved by the `net` oracle and counted. -/
def fetchAndParse (env : Env) (st : St) (url : String) : RSSFeed × St :=
  (fetchAndParseFeed (env.net st.fetchCount) url env.now,
   { st with fetchCount := st.fetchCount + 1 })

/-- `getOrCreateFeed` (lines 825-850): select by url, else insert; store
errors propagate. -/
def getOrCreateFeed (env : Env) (st : St) (feedUrl postTitle : String) :
    Except Unit Nat × St :=
  match runOp env st (qFindFeed feedUrl) with
  | (Except.error e, st1) => (Except.error e, st1)
  | (Except.ok found, st1) =>
    match found with
    | some f => (Except.ok f.id, st1)
    | none => runOp env st1 (qInsertFeed feedUrl postTitle env.now)

/-- `acquireFeedRefreshLock` (lines 960-982): one atomic upsert; acquired
iff the affected-row count is positive; any store error yields `false`. -/
def acquireFeedRefreshLock (env : Env) (st : St) (feedUrl : String) : Bool × St :=
  let lockKey := "refresh_lock:" ++ feedUrl
  let expiryTime := env.now + 60000
  match runOp env st (qLockUpsert lockKey expiryTime env.now) with
  | (Except.ok affected, st1) => (decide (affected > 0), st1)
  | (Except.error _, st1) => (false, st1)

/-- `releaseFeedRefreshLock` (lines 985-992): best-effort delete, errors
swallowed. -/
def releaseFeedRefreshLock (env : Env) (st : St) (feedUrl : String) : St :=
  (runOp env st (qLockDelete ("refresh_lock:" ++ feedUrl))).2

/-- The `rss_entries` row built for one inserted item: description truncated
to 200 characters, `pub_date` normalized through `formatDate`. -/
def entryRowOf (env : Env) (fid : Nat) (entry : RSSItem) : EntryRow :=
  { feedId := fid
    guid := entry.guid
    title := entry.title
    link := entry.link
    description := String.mk (entry.description.data.take 200)
    pubDate := formatDate env.native env.now (DateArg.strArg entry.pubDate)
    image := entry.image
    createdAt := env.now }

/-- Chunks of at most 100 elements, driven by a fuel argument so the
function is structurally recursive. -/
def chunksAux {α : Type} : Nat → List α → List (List α)
  | _, [] => []
  | 0, _ :: _ => []
  | fuel + 1, x :: xs => ((x :: xs).take 100) :: chunksAux fuel ((x :: xs).drop 100)

/-- Chunks of at most 100 elements (the batch-insert chunking). -/
def chunks100 {α : Type} (l : List α) : List (List α) := chunksAux l.length l

theorem chunksAux_flatten {α : Type} (fuel : Nat) (l : List α) (h : l.length ≤ fuel) :
    (chunksAux fuel l).flatten = l := by
  induction fuel generalizing l with
  | zero =>
    cases l with
    | nil => rfl
    | cons x xs => simp at h
  | succ fuel ih =>
    cases l with
    | nil => rfl
    | cons x xs =>
      show (x :: xs).take 100 ++ (chunksAux fuel ((x :: xs).drop 100)).flatten = x :: xs
      rw [ih ((x :: xs).drop 100)
        (by simp only [List.length_drop, List.length_cons] at h ⊢; omega)]
      exact List.take_append_drop 100 (x :: xs)

theorem chunks100_flatten {α : Type} (l : List α) : (chunks100 l).flatten = l :=
  chunksAux_flatten l.length l (Nat.le_refl _)

/-- `storeRSSEntriesWithTransaction` (lines 878-957): immediate return on an
empty list; read the existing guids; filter out already-present guids;
timestamp-only update when nothing is new; else one atomic batch transaction
inserting the chunked rows and bumping the timestamps.  Store errors
propagate to the caller. -/
def storeRSSEntriesWithTransaction (env : Env) (st : St) (feedId : Nat)
    (entries : List RSSItem) : Except Unit Unit × St :=
  if entries.isEmpty then (Except.ok (), st)
  else
    match runOp env st (qEntryGuids feedId) with
    | (Except.error e, st1) => (Except.error e, st1)
    | (Except.ok existingGuids, st1) =>
      let newEntries := entries.filter (fun e => !(existingGuids.contains e.guid))
      if newEntries.isEmpty then
        runOp env st1 (qUpdateFeedTimestamps feedId env.now)
      else
        let rows := (chunks100 newEntries).flatten.map (entryRowOf env feedId)
        runOp env st1 (qInsertEntriesAndBump feedId rows env.now)

/-- The item served back from a stored row (line 1107-1115): the stored
fields with the publication date re-normalized through `formatDate`. -/
def entryToItem (env : Env) (feedUrl : String) (e : EntryRow) : RSSItem :=
  { guid := e.guid
    title := e.title
    link := e.link
    description := e.description
    pubDate := formatDate env.native env.now (DateArg.strArg e.pubDate)
    image := e.image
    feedUrl := feedUrl }

/-- The four-hour staleness window. -/
def fourHoursInMs : Nat := 14400000

/-- The critical section run under the refresh lock (lines 1037-1068): the
double-check re-read, then — when still stale — the fetch and, for a
non-empty parse, the transactional store; a store failure inside the inner
`try` is swallowed.  A thrown double-check read propagates (to be caught by
the top-level handler after the lock is released). -/
def refreshCritical (env : Env) (st : St) (feedId : Nat) (feedUrl : String) :
    Except Unit Unit × St :=
  match runOp env st (qFindLastFetched feedUrl) with
  | (Except.error e, st1) => (Except.error e, st1)
  | (Except.ok lfOpt, st1) =>
    let stillStale : Bool :=
      match lfOpt with
      | some lf => decide (fourHoursInMs ≤ env.now - lf)
      | none => true
    if stillStale then
      let r := fetchAndParse env st1 feedUrl
      if r.1.items.length > 0 then
        match storeRSSEntriesWithTransaction env r.2 feedId r.1.items with
        | (_, st3) => (Except.ok (), st3)
      else (Except.ok (), r.2)
    else (Except.ok (), st1)

/-- The final read and serve phase (lines 1080-1115): read all entries
sorted by publication date descending; on an empty result perform one
fallback fetch (returning the fresh items directly when they store
successfully); a thrown read propagates. -/
def readAndServe (env : Env) (st : St) (feedId : Nat) (feedUrl : String) :
    Except Unit (List RSSItem) × St :=
  match runOp env st (qReadEntriesSorted feedId) with
  | (Except.error e, st1) => (Except.error e, st1)
  | (Except.ok rows, st1) =>
    if rows.isEmpty then
      let r := fetchAndParse env st1 feedUrl
      if r.1.items.length > 0 then
        match storeRSSEntriesWithTransaction env r.2 feedId r.1.items with
        | (Except.ok _, st3) => (Except.ok r.1.items, st3)
        | (Except.error _, st3) => (Except.ok (rows.map (entryToItem env feedUrl)), st3)
      else (Except.ok (rows.map (entryToItem env feedUrl)), r.2)
    else (Except.ok (rows.map (entryToItem env feedUrl)), st1)

/-- The refresh phase (lines 1029-1078) followed by the serve phase: acquire
the lock; inside it run the critical section and always release in the
`finally`; without it proceed straight to serving. -/
def refreshAndServe (env : Env) (st : St) (feedId : Nat)
    (shouldFetchFresh : Bool) (feedUrl : String) : Except Unit (List RSSItem) × St :=
  if shouldFetchFresh then
    let a := acquireFeedRefreshLock env st feedUrl
    if a.1 then
      match refreshCritical env a.2 feedId feedUrl with
      | (res, st2) =>
        let st3 := releaseFeedRefreshLock env st2 feedUrl
        match res with
        | Except.ok _ => readAndServe env st3 feedId feedUrl
        | Except.error e => (Except.error e, st3)
    else readAndServe env a.2 feedId feedUrl
  else readAndServe env st feedId feedUrl

/-- The body of `getRSSEntries` inside the top-level `try` (lines 996-1115):
staleness decision, refresh, serve. -/
def getRSSEntriesBody (env : Env) (st : St) (postTitle feedUrl : String) :
    Except Unit (List RSSItem) × St :=
  match runOp env st (qFindFeed feedUrl) with
  | (Except.error e, st1) => (Except.error e, st1)
  | (Except.ok found, st1) =>
    match found with
    | some f =>
      let timeSinceLastFetch := env.now - f.lastFetched
      let shouldFetchFresh := decide (fourHoursInMs ≤ timeSinceLastFetch)
      refreshAndServe env st1 f.id shouldFetchFresh feedUrl
    | none =>
      match getOrCreateFeed env st1 feedUrl postTitle with
      | (Except.error e, st2) => (Except.error e, st2)
      | (Except.ok fid, st2) => refreshAndServe env st2 fid true feedUrl

/-- `getRSSEntries` (lines 995-1129): the body under the top-level `catch`,
which attempts one last-resort direct fetch (itself never throwing) and
would return `[]` only if that threw. -/
def getRSSEntries (env : Env) (st : St) (postTitle feedUrl : String) :
    List RSSItem × St :=
  match getRSSEntriesBody env st postTitle feedUrl with
  | (Except.ok items, st1) => (items, st1)
  | (Except.error _, st1) =>
    let r := fetchAndParse env st1 feedUrl
    (r.1.items, r.2)

/-! ## Interleaving model of two concurrent `getRSSEntries` calls

For the concurrency property, one call on a stale feed is a sequence of
atomic suspension points (each store operation or outbound fetch of the
code), and two calls interleave under an arbitrary schedule.  Scenario
baked into the machine: the feed row exists, the lock table starts without
the key, the store operations succeed, and the wall clock is the shared
constant `now`.  Whether any entry row is stored for the feed is part of
the machine state (`ent`), so the empty-read fallback fetch of the final
read is a program path of the machine, not an assumption.

Program counters of one call, mirroring `getRSSEntries`:
`0` staleness read (line 1000), `1` lock upsert (line 1031), `2` double-check
read (line 1038), `3` the outbound fetch (line 1057), `4` the store
transaction (line 1060, skipped for a zero-item parse; a nonempty store — or
the timestamp-only duplicate update — bumps `last_fetched`), `5` the lock
release (line 1071), `6` the final entries read (line 1082), `7` the
empty-read fallback fetch (line 1092), `8` the fallback store (line 1095),
`9` done. -/

theorem runOp_noerr {α : Type} (env : Env) (st : St) (f : DB → α × DB)
    (h : env.dbErr st.opCount = false) :
    runOp env st f =
      (Except.ok (f st.db).1,
       { db := (f st.db).2, fetchCount := st.fetchCount, opCount := st.opCount + 1 }) := by
  unfold runOp
  simp [h]

theorem runOp_ok_val {α : Type} {env : Env} {st : St} {f : DB → α × DB} {a : α}
    {st' : St} (h : runOp env st f = (Except.ok a, st')) :
    a = (f st.db).1 ∧ st'.db = (f st.db).2 ∧ st'.fetchCount = st.fetchCount := by
  unfold runOp at h
  by_cases hd : env.dbErr st.opCount
  · simp [hd] at h
  · simp [hd] at h
    refine ⟨h.1.symm, ?_, ?_⟩ <;> rw [← h.2]

theorem sortEntriesDesc_sorted (l : List EntryRow) :
    List.Sorted entryDescOrder (sortEntriesDesc l) :=
  List.sorted_insertionSort entryDescOrder l

theorem sortEntriesDesc_perm (l : List EntryRow) : (sortEntriesDesc l).Perm l :=
  List.perm_insertionSort entryDescOrder l

theorem sortEntriesDesc_ne_nil {l : List EntryRow} (h : l ≠ []) :
    sortEntriesDesc l ≠ [] := by
  intro hn
  exact h (List.Perm.eq_nil ((sortEntriesDesc_perm l).symm.trans (hn ▸ List.Perm.refl _)))

theorem entriesFor_append (es rows : List EntryRow) (fid : Nat)
    (h : ∀ r ∈ rows, r.feedId = fid) :
    (es ++ rows).filter (fun e => e.feedId == fid) =
      es.filter (fun e => e.feedId == fid) ++ rows := by
  rw [List.filter_append]
  congr 1
  apply List.filter_eq_self.mpr
  intro r hr
  simp [h r hr]

theorem locks_filter_self (locks : List LockRow) (key : String)
    (h : locks.find? (fun l => l.lockKey == key) = none) :
    locks.filter (fun l => !(l.lockKey == key)) = locks := by
  apply List.filter_eq_self.mpr
  intro l hl
  have := List.find?_eq_none.mp h l hl
  simpa using this

theorem find?_bumpFeed (feeds : List FeedRow) (fid now : Nat) (url : String) :
    (bumpFeed fid now feeds).find? (fun f => f.feedUrl == url) =
      ((feeds.find? (fun f => f.feedUrl == url)).map (fun f =>
        if f.id == fid then { f with lastFetched := now, updatedAt := now } else f)) := by
  have hcomp : ((fun f : FeedRow => f.feedUrl == url) ∘ fun f : FeedRow =>
      if (f.id == fid) = true then { f with lastFetched := now, updatedAt := now }
      else f) = (fun f : FeedRow => f.feedUrl == url) := by
    funext x
    by_cases hx : (x.id == fid) = true <;> simp [Function.comp, hx]
  unfold bumpFeed
  rw [List.find?_map, hcomp]

/-- The effect of the store layer under error-free store operations: nothing
at all for an empty list; otherwise the guid-filtered rows are appended and
the feed timestamps bumped in two operations. -/
theorem store_noerr (env : Env) (st : St) (fid : Nat) (items : List RSSItem)
    (hdb : ∀ i, env.dbErr i = false) :
    storeRSSEntriesWithTransaction env st fid items =
      (Except.ok (),
       if items.isEmpty then st
       else
         { db := { feeds := bumpFeed fid env.now st.db.feeds
                   entries := st.db.entries ++
                     ((items.filter (fun e =>
                        !(((dbEntriesFor st.db fid).map (fun r => r.guid)).contains
                           e.guid))).map (entryRowOf env fid))
                   locks := st.db.locks
                   nextId := st.db.nextId }
           fetchCount := st.fetchCount
           opCount := st.opCount + 2 }) := by
  unfold storeRSSEntriesWithTransaction
  by_cases hemp : items.isEmpty = true
  · simp [hemp]
  · simp only [Bool.not_eq_true] at hemp
    rcases st with ⟨⟨feeds, entries, locks, nid⟩, fc, oc⟩
    simp only [hemp, Bool.false_eq_true, if_false]
    rw [runOp_noerr _ _ _ (hdb _)]
    simp only [qEntryGuids]
    by_cases hnew : (items.filter (fun e =>
        !(((dbEntriesFor ⟨feeds, entries, locks, nid⟩ fid).map (fun r => r.guid)).contains
          e.guid))).isEmpty = true
    · rw [List.isEmpty_iff] at hnew
      simp only [hnew, List.isEmpty_nil, if_true]
      rw [runOp_noerr _ _ _ (hdb _)]
      simp [qUpdateFeedTimestamps, hnew]
    · simp only [Bool.not_eq_true] at hnew
      simp only [hnew, Bool.false_eq_true, if_false]
      rw [runOp_noerr _ _ _ (hdb _)]
      simp [qInsertEntriesAndBump, chunks100_flatten]

/-- The entry rows a refresh inserts: the fetched items whose guid is not
already stored for the feed, as rows (proof-support abbreviation). -/
def freshRows (env : Env) (st : St) (u : String) (fid : Nat) : List EntryRow :=
  (((fetchAndParseFeed (env.net st.fetchCount) u env.now).items).filter (fun e =>
    !(((dbEntriesFor st.db fid).map (fun r => r.guid)).contains e.guid))).map
    (entryRowOf env fid)

theorem freshRows_feedId (env : Env) (st : St) (u : String) (fid : Nat) :
    ∀ r ∈ freshRows env st u fid, r.feedId = fid := by
  intro r hr
  rcases List.mem_map.mp hr with ⟨e, -, rfl⟩
  rfl

/-- A fresh feed with at least one stored entry is served straight from the
store: two operations, no outbound fetch, store unchanged. -/
theorem cacheHit_run (env : Env) (st : St) (p u : String) (f : FeedRow)
    (hf : dbFindFeed st.db u = some f)
    (hfr : env.now - f.lastFetched < fourHoursInMs)
    (hne : dbEntriesFor st.db f.id ≠ [])
    (hdb : ∀ i, env.dbErr i = false) :
    getRSSEntries env st p u =
      ((sortEntriesDesc (dbEntriesFor st.db f.id)).map (entryToItem env u),
       { db := st.db, fetchCount := st.fetchCount, opCount := st.opCount + 2 }) := by
  have hsf : decide (fourHoursInMs ≤ env.now - f.lastFetched) = false :=
    decide_eq_false (by omega)
  have hrne : (sortEntriesDesc (dbEntriesFor st.db f.id)).isEmpty = false := by
    cases hq : (sortEntriesDesc (dbEntriesFor st.db f.id)).isEmpty
    · rfl
    · exact absurd (List.isEmpty_iff.mp hq) (sortEntriesDesc_ne_nil hne)
  rcases st with ⟨db0, fc0, oc0⟩
  unfold getRSSEntries getRSSEntriesBody
  rw [runOp_noerr _ _ _ (hdb _)]
  simp only [qFindFeed] at hf ⊢
  rw [hf]
  unfold refreshAndServe
  simp only [hsf, Bool.false_eq_true, if_false]
  unfold readAndServe
  rw [runOp_noerr _ _ _ (hdb _)]
  simp only [qReadEntriesSorted] at hrne ⊢
  simp [hrne]

/-- A stale feed with no lock row, error-free store operations and a fetch
parsing at least one item: one outbound fetch, the new rows appended, the
timestamps bumped, the lock released, and the sorted store served. -/
theorem staleRefresh_run (env : Env) (st : St) (p u : String) (f : FeedRow)
    (hf : dbFindFeed st.db u = some f)
    (hstale : fourHoursInMs ≤ env.now - f.lastFetched)
    (hlock : dbFindLock st.db ("refresh_lock:" ++ u) = none)
    (hdb : ∀ i, env.dbErr i = false)
    (hitems : (fetchAndParseFeed (env.net st.fetchCount) u env.now).items ≠ []) :
    getRSSEntries env st p u =
      ((sortEntriesDesc (dbEntriesFor st.db f.id ++ freshRows env st u f.id)).map
         (entryToItem env u),
       { db := { feeds := bumpFeed f.id env.now st.db.feeds
                 entries := st.db.entries ++ freshRows env st u f.id
                 locks := st.db.locks
                 nextId := st.db.nextId }
         fetchCount := st.fetchCount + 1
         opCount := st.opCount + 7 }) := by
  rcases st with ⟨db0, fc0, oc0⟩
  simp only [] at hf hlock hitems
  have hsf : decide (fourHoursInMs ≤ env.now - f.lastFetched) = true :=
    decide_eq_true hstale
  have hlen : 0 < (fetchAndParseFeed (env.net fc0) u env.now).items.length :=
    List.length_pos.mpr hitems
  have hiemp : (fetchAndParseFeed (env.net fc0) u env.now).items.isEmpty = false := by
    cases hq : (fetchAndParseFeed (env.net fc0) u env.now).items.isEmpty
    · rfl
    · exact absurd (List.isEmpty_iff.mp hq) hitems
  have hread : dbEntriesFor db0 f.id ++ freshRows env ⟨db0, fc0, oc0⟩ u f.id ≠ [] := by
    cases hp : dbEntriesFor db0 f.id with
    | nil =>
      simp only [List.nil_append]
      unfold freshRows
      simp only []
      rw [hp]
      simp only [List.map_nil]
      intro hmapnil
      have hfil := List.map_eq_nil_iff.mp hmapnil
      apply hitems
      cases hit : (fetchAndParseFeed (env.net fc0) u env.now).items with
      | nil => rfl
      | cons e es =>
        rw [hit] at hfil
        simp at hfil
    | cons r rs => simp
  have hlkey : (({ lockKey := "refresh_lock:" ++ u, expiresAt := env.now + 60000
      : LockRow }).lockKey == ("refresh_lock:" ++ u)) = true := by simp
  simp only [getRSSEntries, getRSSEntriesBody]
  rw [runOp_noerr _ _ _ (hdb _)]
  simp only [qFindFeed, hf, refreshAndServe, hsf, if_true,
    acquireFeedRefreshLock]
  rw [runOp_noerr _ _ _ (hdb _)]
  simp only [qLockUpsert, dbFindLock] at hlock ⊢
  rw [hlock]
  simp only [show (decide ((1 : Nat) > 0)) = true from rfl, if_true, refreshCritical]
  rw [runOp_noerr _ _ _ (hdb _)]
  simp only [qFindLastFetched, dbFindFeed] at hf ⊢
  rw [hf]
  simp only [Option.map_some', hsf, if_true, fetchAndParse]
  rw [if_pos hlen]
  rw [store_noerr _ _ _ _ hdb]
  simp only [hiemp, Bool.false_eq_true, if_false, releaseFeedRefreshLock]
  rw [runOp_noerr _ _ _ (hdb _)]
  simp only [qLockDelete, List.filter_append, List.filter_cons, hlkey,
    Bool.not_true, Bool.false_eq_true, if_false, List.filter_nil, readAndServe]
  rw [locks_filter_self db0.locks _ hlock]
  rw [runOp_noerr _ _ _ (hdb _)]
  have hentries : List.filter (fun e => e.feedId == f.id)
      (db0.entries ++ freshRows env ⟨db0, fc0, oc0⟩ u f.id) =
      List.filter (fun e => e.feedId == f.id) db0.entries ++
        freshRows env ⟨db0, fc0, oc0⟩ u f.id :=
    entriesFor_append _ _ _ (freshRows_feedId env ⟨db0, fc0, oc0⟩ u f.id)
  simp only [freshRows, dbEntriesFor] at hread hentries ⊢
  simp only [qReadEntriesSorted, dbEntriesFor, List.append_nil]
  rw [hentries]
  have hrne2 : (sortEntriesDesc (List.filter (fun e => e.feedId == f.id) db0.entries ++
      List.map (entryRowOf env f.id)
        (List.filter (fun e => !(List.contains (List.map (fun r => r.guid)
          (List.filter (fun e => e.feedId == f.id) db0.entries)) e.guid))
          (fetchAndParseFeed (env.net fc0) u env.now).items))).isEmpty = false := by
    cases hq : (sortEntriesDesc _).isEmpty
    · rfl
    · exact absurd (List.isEmpty_iff.mp hq) (sortEntriesDesc_ne_nil hread)
  rw [hrne2]
  simp only [Bool.false_eq_true, if_false]

/-- A stale feed with no lock row, error-free store operations, at least one
stored entry, and a fetch parsing zero valid items: one outbound fetch, no
store write at all (no inserted rows, no timestamp bump), the lock released,
and the unchanged sorted store served. -/
theorem staleRefreshEmpty_run (env : Env) (st : St) (p u : String) (f : FeedRow)
    (hf : dbFindFeed st.db u = some f)
    (hstale : fourHoursInMs ≤ env.now - f.lastFetched)
    (hlock : dbFindLock st.db ("refresh_lock:" ++ u) = none)
    (hdb : ∀ i, env.dbErr i = false)
    (hne : dbEntriesFor st.db f.id ≠ [])
    (hempty : (fetchAndParseFeed (env.net st.fetchCount) u env.now).items = []) :
    getRSSEntries env st p u =
      ((sortEntriesDesc (dbEntriesFor st.db f.id)).map (entryToItem env u),
       { db := st.db, fetchCount := st.fetchCount + 1, opCount := st.opCount + 5 }) := by
  rcases st with ⟨db0, fc0, oc0⟩
  simp only [] at hf hlock hne hempty
  have hsf : decide (fourHoursInMs ≤ env.now - f.lastFetched) = true :=
    decide_eq_true hstale
  have hlen : ¬(0 < (fetchAndParseFeed (env.net fc0) u env.now).items.length) := by
    rw [hempty]
    simp
  have hlkey : (({ lockKey := "refresh_lock:" ++ u, expiresAt := env.now + 60000
      : LockRow }).lockKey == ("refresh_lock:" ++ u)) = true := by simp
  simp only [getRSSEntries, getRSSEntriesBody]
  rw [runOp_noerr _ _ _ (hdb _)]
  simp only [qFindFeed, hf, refreshAndServe, hsf, if_true,
    acquireFeedRefreshLock]
  rw [runOp_noerr _ _ _ (hdb _)]
  simp only [qLockUpsert, dbFindLock] at hlock ⊢
  rw [hlock]
  simp only [show (decide ((1 : Nat) > 0)) = true from rfl, if_true, refreshCritical]
  rw [runOp_noerr _ _ _ (hdb _)]
  simp only [qFindLastFetched, dbFindFeed] at hf ⊢
  rw [hf]
  simp only [Option.map_some', hsf, if_true, fetchAndParse]
  rw [if_neg hlen]
  simp only [releaseFeedRefreshLock]
  rw [runOp_noerr _ _ _ (hdb _)]
  simp only [qLockDelete, List.filter_append, List.filter_cons, hlkey,
    Bool.not_true, Bool.false_eq_true, if_false, List.filter_nil, readAndServe]
  rw [locks_filter_self db0.locks _ hlock]
  rw [runOp_noerr _ _ _ (hdb _)]
  simp only [dbEntriesFor] at hne
  simp only [qReadEntriesSorted, dbEntriesFor, List.append_nil]
  have hrne2 : (sortEntriesDesc (List.filter (fun e => e.feedId == f.id)
      db0.entries)).isEmpty = false := by
    cases hq : (sortEntriesDesc _).isEmpty
    · rfl
    · exact absurd (List.isEmpty_iff.mp hq) (sortEntriesDesc_ne_nil hne)
  rw [hrne2]
  simp only [Bool.false_eq_true, if_false]

/-- The result came from the store read: the mapped image of a list sorted
by publication date descending. -/
def servedFromStore (env : Env) (url : String) (res : List RSSItem) : Prop :=
  ∃ rows : List EntryRow, List.Sorted entryDescOrder rows ∧
    res = rows.map (entryToItem env url)

/-- The result is the item list of some outbound fetch of the run, in feed
source order. -/
def servedFromFetch (env : Env) (url : String) (res : List RSSItem) : Prop :=
  ∃ k, res = (fetchAndParseFeed (env.net k) url env.now).items

theorem readAndServe_shape {env : Env} {st : St} {fid : Nat} {url : String}
    {res : List RSSItem} {st' : St}
    (h : readAndServe env st fid url = (Except.ok res, st')) :
    servedFromStore env url res ∨ servedFromFetch env url res := by
  unfold readAndServe at h
  rcases hq : runOp env st (qReadEntriesSorted fid) with ⟨r, st1⟩
  rw [hq] at h
  cases r with
  | error e => simp at h
  | ok rows =>
    have hrows : rows = sortEntriesDesc (dbEntriesFor st.db fid) := by
      have hv := runOp_ok_val hq
      simpa [qReadEntriesSorted] using hv.1
    have hleft : res = rows.map (entryToItem env url) →
        servedFromStore env url res := by
      intro hres
      exact ⟨rows, hrows ▸ sortEntriesDesc_sorted _, hres⟩
    simp only [] at h
    by_cases hemp : rows.isEmpty = true
    · simp only [hemp, if_true] at h
      by_cases hl : 0 < (fetchAndParse env st1 url).1.items.length
      · rw [if_pos hl] at h
        rcases hs : storeRSSEntriesWithTransaction env (fetchAndParse env st1 url).2
            fid (fetchAndParse env st1 url).1.items with ⟨sres, st3⟩
        rw [hs] at h
        cases sres with
        | ok a =>
          simp only [Prod.mk.injEq, Except.ok.injEq] at h
          right
          exact ⟨st1.fetchCount, h.1.symm⟩
        | error e =>
          simp only [Prod.mk.injEq, Except.ok.injEq] at h
          exact Or.inl (hleft h.1.symm)
      · rw [if_neg hl] at h
        simp only [Prod.mk.injEq, Except.ok.injEq] at h
        exact Or.inl (hleft h.1.symm)
    · simp only [hemp, if_false, Bool.false_eq_true] at h
      simp only [Prod.mk.injEq, Except.ok.injEq] at h
      exact Or.inl (hleft h.1.symm)

theorem refreshAndServe_shape {env : Env} {st : St} {fid : Nat} {sff : Bool}
    {url : String} {res : List RSSItem} {st' : St}
    (h : refreshAndServe env st fid sff url = (Except.ok res, st')) :
    servedFromStore env url res ∨ servedFromFetch env url res := by
  unfold refreshAndServe at h
  cases sff with
  | false =>
    simp only [Bool.false_eq_true, if_false] at h
    exact readAndServe_shape h
  | true =>
    simp only [if_true] at h
    rcases ha : acquireFeedRefreshLock env st url with ⟨got, st1⟩
    rw [ha] at h
    simp only [] at h
    cases got with
    | false =>
      simp only [Bool.false_eq_true, if_false] at h
      exact readAndServe_shape h
    | true =>
      simp only [if_true] at h
      rcases hc : refreshCritical env st1 fid url with ⟨cres, st2⟩
      rw [hc] at h
      cases cres with
      | ok a => exact readAndServe_shape h
      | error e => simp at h

theorem getRSSEntriesBody_shape {env : Env} {st : St} {p url : String}
    {res : List RSSItem} {st' : St}
    (h : getRSSEntriesBody env st p url = (Except.ok res, st')) :
    servedFromStore env url res ∨ servedFromFetch env url res := by
  unfold getRSSEntriesBody at h
  rcases hq : runOp env st (qFindFeed url) with ⟨r, st1⟩
  rw [hq] at h
  cases r with
  | error e => simp at h
  | ok found =>
    cases found with
    | some f => exact refreshAndServe_shape h
    | none =>
      dsimp only at h
      rcases hg : getOrCreateFeed env st1 url p with ⟨gres, st2⟩
      rw [hg] at h
      cases gres with
      | ok fid => exact refreshAndServe_shape h
      | error e => simp at h

/-- Shape of every `getRSSEntries` result: a store read sorted newest-first,
or the items of one of the run's outbound fetches in feed source order. -/
theorem getRSSEntries_shape (env : Env) (st : St) (p url : String) :
    servedFromStore env url (getRSSEntries env st p url).1 ∨
      servedFromFetch env url (getRSSEntries env st p url).1 := by
  unfold getRSSEntries
  rcases hb : getRSSEntriesBody env st p url with ⟨bres, st1⟩
  cases bres with
  | ok items => simpa using getRSSEntriesBody_shape hb
  | error e =>
    right
    exact ⟨st1.fetchCount, rfl⟩

/-- Stored-entry set nonemptiness after a refresh that parsed items. -/
theorem prior_append_freshRows_ne_nil (env : Env) (st : St) (u : String) (fid : Nat)
    (hitems : (fetchAndParseFeed (env.net st.fetchCount) u env.now).items ≠ []) :
    dbEntriesFor st.db fid ++ freshRows env st u fid ≠ [] := by
  cases hp : dbEntriesFor st.db fid with
  | nil =>
    simp only [List.nil_append]
    unfold freshRows
    rw [hp]
    simp only [List.map_nil]
    intro hmapnil
    have hfil := List.map_eq_nil_iff.mp hmapnil
    apply hitems
    cases hit : (fetchAndParseFeed (env.net st.fetchCount) u env.now).items with
    | nil => rfl
    | cons e es =>
      rw [hit] at hfil
      simp at hfil
  | cons r rs => simp

/-! ## Concrete scenario instances for counterexamples and witnesses -/

/-- Is a result list sorted by publication date, newest first? -/
def pubDateSortedDesc : List RSSItem → Bool
  | [] => true
  | [_] => true
  | a :: b :: rest => strLe b.pubDate a.pubDate && pubDateSortedDesc (b :: rest)

/-- The scenario clock: 2023-11-14T22:13:20.000Z. -/
def exNow : Nat := 1700000000000

/-- An item published 2020-01-01. -/
def exItemOld : RSSItem :=
  { title := "Old", description := "d", link := "l", guid := "g1"
    pubDate := "2020-01-01T00:00:00.000Z", image := none, feedUrl := "u" }

/-- An item published 2020-06-01 (newer). -/
def exItemNew : RSSItem :=
  { title := "New", description := "d", link := "l", guid := "g2"
    pubDate := "2020-06-01T00:00:00.000Z", image := none, feedUrl := "u" }

/-- A feed whose source order is oldest first. -/
def exFeedAsc : RSSFeed :=
  { title := "t", description := "", link := "u", items := [exItemOld, exItemNew] }

/-- Oracles: fetches succeed with the ascending feed, the store never errs. -/
def exEnvOk : Env :=
  { now := exNow, net := fun _ => .success exFeedAsc, dbErr := fun _ => false
    native := parseISOZ }

/-- Oracles: every fetch fails. -/
def exEnvFail : Env :=
  { now := exNow, net := fun _ => .failure "network error", dbErr := fun _ => false
    native := parseISOZ }

/-- Oracles: fetches succeed but parse to zero valid items. -/
def exEnvNoItems : Env :=
  { now := exNow
    net := fun _ => .success { title := "t", description := "", link := "u", items := [] }
    dbErr := fun _ => false
    native := parseISOZ }

/-- An empty store. -/
def exStEmpty : St :=
  { db := { feeds := [], entries := [], locks := [], nextId := 1 }
    fetchCount := 0, opCount := 0 }

/-- The stored row of `exItemOld` under feed id 7. -/
def exRowOld : EntryRow :=
  { feedId := 7, guid := "g1", title := "Old", link := "l", description := "d"
    pubDate := "2020-01-01T00:00:00.000Z", image := none, createdAt := 0 }

/-- The stored row of `exItemNew` under feed id 7. -/
def exRowNew : EntryRow :=
  { feedId := 7, guid := "g2", title := "New", link := "l", description := "d"
    pubDate := "2020-06-01T00:00:00.000Z", image := none, createdAt := 0 }

/-- Feed 7, fetched one hour ago (fresh). -/
def exFeedRowFresh : FeedRow :=
  { id := 7, feedUrl := "u", title := "T", lastFetched := exNow - 3600000
    updatedAt := 0 }

/-- Feed 7, last fetched far in the past (stale). -/
def exFeedRowStale : FeedRow :=
  { id := 7, feedUrl := "u", title := "T", lastFetched := 1, updatedAt := 0 }

/-- A store with fresh feed 7 and two entries. -/
def exStFresh : St :=
  { db := { feeds := [exFeedRowFresh], entries := [exRowOld, exRowNew], locks := []
            nextId := 8 }
    fetchCount := 0, opCount := 0 }

/-- A store with fresh feed 7 and zero entries. -/
def exStFreshEmpty : St :=
  { db := { feeds := [exFeedRowFresh], entries := [], locks := [], nextId := 8 }
    fetchCount := 0, opCount := 0 }

/-- A store with stale feed 7 and one entry. -/
def exStStale : St :=
  { db := { feeds := [exFeedRowStale], entries := [exRowOld], locks := [], nextId := 8 }
    fetchCount := 0, opCount := 0 }

/-! ## Claim C1 -/

/-- C1, counterexample: for a brand-new feed whose fetch succeeds, the
empty-store fallback path returns the freshly parsed items directly in feed
source order, so the returned list is not ordered newest-first (the call
still returns normally, with two items). -/
theorem claim_C1_counterexample :
    pubDateSortedDesc (getRSSEntries exEnvOk exStEmpty "T" "u").1 = false ∧
      (getRSSEntries exEnvOk exStEmpty "T" "u").1.length = 2 := by
  constructor <;> decide

/-- C1 (amended): `getRSSEntries` always returns normally with a list,
which is either the store read — sorted by publication date, newest
first — or the item list of one of the run's direct fetches, in feed
source order. -/
theorem claim_C1 (env : Env) (st : St) (p url : String) :
    servedFromStore env url (getRSSEntries env st p url).1 ∨
      servedFromFetch env url (getRSSEntries env st p url).1 :=
  getRSSEntries_shape env st p url

/-! ## Claim C2 -/

/-- C2 (code bug): for a stale feed with one stored entry whose refresh
fetch fails, `fetchAndParseFeed` swallows the error into a synthetic
one-item error feed, which the coordinator then *stores*: a new
`error-`-guid row is appended, `last_fetched` is bumped to now, and the
synthetic item is served back alongside the stored entry — the stored entry
set does not stay unchanged as the claim states. -/
theorem claim_C2_failing :
    (getRSSEntries exEnvFail exStStale "T" "u").2.db.entries.map (fun e => e.guid) =
      ["g1", "error-" ++ toString exNow] ∧
    ((getRSSEntries exEnvFail exStStale "T" "u").2.db.feeds.map
      (fun f => f.lastFetched)) = [exNow] ∧
    (getRSSEntries exEnvFail exStStale "T" "u").1.map (fun i => i.guid) =
      ["error-" ++ toString exNow, "g1"] := by
  refine ⟨?_, ?_, ?_⟩ <;> decide

/-! ## Claim C3 -/

/-- C3, counterexample: a feed already present and fetched within the
window but with zero stored entries triggers the empty-read fallback, which
performs an outbound fetch — not the zero fetches the claim states. -/
theorem claim_C3_counterexample :
    (getRSSEntries exEnvOk exStFreshEmpty "T" "u").2.fetchCount = 1 := by
  decide

/-- C3 (amended): provided at least one entry is stored for the feed and
the store operations succeed, a call on a fresh feed (fetched less than
4 hours ago) performs no outbound fetch, leaves the store untouched and
serves the stored entries sorted newest first; and two sequential calls —
a stale one that refreshes with at least one parsed item, then one within
the window — perform exactly one outbound fetch between them, the second
being a pure cache read. -/
theorem claim_C3 :
    (∀ (env : Env) (st : St) (p u : String) (f : FeedRow),
      dbFindFeed st.db u = some f →
      env.now - f.lastFetched < fourHoursInMs →
      dbEntriesFor st.db f.id ≠ [] →
      (∀ i, env.dbErr i = false) →
      (getRSSEntries env st p u).2.fetchCount = st.fetchCount ∧
      (getRSSEntries env st p u).2.db = st.db ∧
      (getRSSEntries env st p u).1 =
        (sortEntriesDesc (dbEntriesFor st.db f.id)).map (entryToItem env u)) ∧
    (∀ (env env2 : Env) (st : St) (p u : String) (f : FeedRow),
      dbFindFeed st.db u = some f →
      fourHoursInMs ≤ env.now - f.lastFetched →
      dbFindLock st.db ("refresh_lock:" ++ u) = none →
      (∀ i, env.dbErr i = false) →
      (fetchAndParseFeed (env.net st.fetchCount) u env.now).items ≠ [] →
      (∀ i, env2.dbErr i = false) →
      env2.now - env.now < fourHoursInMs →
      (getRSSEntries env st p u).2.fetchCount = st.fetchCount + 1 ∧
      (getRSSEntries env2 (getRSSEntries env st p u).2 p u).2.fetchCount =
        st.fetchCount + 1) := by
  constructor
  · intro env st p u f hf hfr hne hdb
    rw [cacheHit_run env st p u f hf hfr hne hdb]
    exact ⟨rfl, rfl, rfl⟩
  · intro env env2 st p u f hf hstale hlock hdb hitems hdb2 hfr2
    rw [staleRefresh_run env st p u f hf hstale hlock hdb hitems]
    refine ⟨rfl, ?_⟩
    have hfind2 : dbFindFeed
        { feeds := bumpFeed f.id env.now st.db.feeds
          entries := st.db.entries ++ freshRows env st u f.id
          locks := st.db.locks
          nextId := st.db.nextId : DB } u =
        some { f with lastFetched := env.now, updatedAt := env.now } := by
      show (bumpFeed f.id env.now st.db.feeds).find? (fun g => g.feedUrl == u) =
        some { f with lastFetched := env.now, updatedAt := env.now }
      rw [find?_bumpFeed]
      unfold dbFindFeed at hf
      rw [hf]
      simp
    have hne2 : dbEntriesFor
        { feeds := bumpFeed f.id env.now st.db.feeds
          entries := st.db.entries ++ freshRows env st u f.id
          locks := st.db.locks
          nextId := st.db.nextId : DB } f.id ≠ [] := by
      show (st.db.entries ++ freshRows env st u f.id).filter
          (fun e => e.feedId == f.id) ≠ []
      rw [entriesFor_append _ _ _ (freshRows_feedId env st u f.id)]
      exact prior_append_freshRows_ne_nil env st u f.id hitems
    rw [cacheHit_run env2 _ p u _ hfind2 (by simpa using hfr2) hne2 hdb2]

/-! ## Claim C7 -/

/-- C10: an empty item list makes `storeRSSEntriesWithTransaction` return
immediately: no row is inserted, no timestamp bumped, no store operation
even attempted; and a stale refresh that parses zero valid items leaves the
entire store unchanged, so the feed is still stale on the next call. -/
theorem claim_C10 :
    (∀ (env : Env) (st : St) (fid : Nat),
      storeRSSEntriesWithTransaction env st fid [] = (Except.ok (), st)) ∧
    (∀ (env : Env) (st : St) (p u : String) (f : FeedRow),
      dbFindFeed st.db u = some f →
      fourHoursInMs ≤ env.now - f.lastFetched →
      dbFindLock st.db ("refresh_lock:" ++ u) = none →
      (∀ i, env.dbErr i = false) →
      dbEntriesFor st.db f.id ≠ [] →
      (fetchAndParseFeed (env.net st.fetchCount) u env.now).items = [] →
      (getRSSEntries env st p u).2.db = st.db) := by
  constructor
  · intro env st fid
    rfl
  · intro env st p u f hf hstale hlock hdb hne hempty
    rw [staleRefreshEmpty_run env st p u f hf hstale hlock hdb hne hempty]

/-- C3 witness: the two-call part at the concrete stale scenario. -/
theorem claim_C3_witness :
    (dbFindFeed exStStale.db "u" = some exFeedRowStale ∧
     fourHoursInMs ≤ exEnvOk.now - exFeedRowStale.lastFetched ∧
     dbFindLock exStStale.db ("refresh_lock:" ++ "u") = none ∧
     (fetchAndParseFeed (exEnvOk.net exStStale.fetchCount) "u" exEnvOk.now).items ≠ [] ∧
     exEnvOk.now - exEnvOk.now < fourHoursInMs) ∧
    ((getRSSEntries exEnvOk exStStale "T" "u").2.fetchCount = exStStale.fetchCount + 1 ∧
     (getRSSEntries exEnvOk (getRSSEntries exEnvOk exStStale "T" "u").2 "T" "u").2.fetchCount =
       exStStale.fetchCount + 1) := by
  refine ⟨⟨by decide, by decide, by decide, by decide, by decide⟩, ?_⟩
  exact claim_C3.2 exEnvOk exEnvOk exStStale "T" "u" exFeedRowStale (by decide) (by decide)
    (by decide) (fun _ => rfl) (by decide) (fun _ => rfl) (by decide)

/-! ## Claim C5 -/

/-- C5, counterexample: inserting one new item over a prior stored entry and
reading back sorted by publication date descending yields the prior entry as
well — not only the inserted set minus pre-existing guids, as the claim
states.  (Guid dedup itself does hold; the read-back is the union.) -/
theorem claim_C5_counterexample :
    ((sortEntriesDesc (dbEntriesFor
        (storeRSSEntriesWithTransaction exEnvOk exStStale 7 [exItemNew]).2.db 7)).map
      (fun r => r.guid)) = ["g2", "g1"] ∧
    [exItemNew].map (fun i => i.guid) = ["g2"] := by
  constructor <;> decide

/-- C5 (amended): when the store operations succeed, the batch upsert
returns successfully and appends exactly the items whose guid was not
already stored for that feed id, never touching existing rows; the
subsequent sorted read-back is ordered by publication date descending and
is a permutation of the prior entry set plus those deduplicated new rows. -/
theorem claim_C5 (env : Env) (st : St) (fid : Nat) (items : List RSSItem)
    (hdb : ∀ i, env.dbErr i = false) :
    (storeRSSEntriesWithTransaction env st fid items).1 = Except.ok () ∧
    dbEntriesFor (storeRSSEntriesWithTransaction env st fid items).2.db fid =
      dbEntriesFor st.db fid ++
        ((items.filter (fun e =>
           !(((dbEntriesFor st.db fid).map (fun r => r.guid)).contains e.guid))).map
          (entryRowOf env fid)) ∧
    List.Sorted entryDescOrder (sortEntriesDesc
      (dbEntriesFor (storeRSSEntriesWithTransaction env st fid items).2.db fid)) ∧
    (sortEntriesDesc
      (dbEntriesFor (storeRSSEntriesWithTransaction env st fid items).2.db fid)).Perm
      (dbEntriesFor st.db fid ++
        ((items.filter (fun e =>
           !(((dbEntriesFor st.db fid).map (fun r => r.guid)).contains e.guid))).map
          (entryRowOf env fid))) := by
  rw [store_noerr env st fid items hdb]
  by_cases hemp : items.isEmpty = true
  · rw [List.isEmpty_iff] at hemp
    subst hemp
    simp only [List.isEmpty_nil, if_true, List.filter_nil, List.map_nil, List.append_nil]
    exact ⟨by trivial, by trivial, sortEntriesDesc_sorted _, sortEntriesDesc_perm _⟩
  · simp only [Bool.not_eq_true] at hemp
    simp only [hemp, Bool.false_eq_true, if_false]
    have hrows : ∀ r ∈ (items.filter (fun e =>
        !(((dbEntriesFor st.db fid).map (fun x => x.guid)).contains e.guid))).map
          (entryRowOf env fid), r.feedId = fid := by
      intro r hr
      rcases List.mem_map.mp hr with ⟨i, -, rfl⟩
      rfl
    have hent : dbEntriesFor
        { feeds := bumpFeed fid env.now st.db.feeds
          entries := st.db.entries ++
            ((items.filter (fun e =>
               !(((dbEntriesFor st.db fid).map (fun r => r.guid)).contains e.guid))).map
              (entryRowOf env fid))
          locks := st.db.locks
          nextId := st.db.nextId : DB } fid =
        dbEntriesFor st.db fid ++
          ((items.filter (fun e =>
             !(((dbEntriesFor st.db fid).map (fun r => r.guid)).contains e.guid))).map
            (entryRowOf env fid)) := by
      show (st.db.entries ++ _).filter (fun e => e.feedId == fid) = _
      rw [entriesFor_append _ _ _ hrows]
      rfl
    exact ⟨by trivial, hent, sortEntriesDesc_sorted _,
      by rw [hent]; exact sortEntriesDesc_perm _⟩

/-- C5 witness: the amended round-trip at the concrete one-insert scenario. -/
theorem claim_C5_witness :
    (∀ i, exEnvOk.dbErr i = false) ∧
    ((storeRSSEntriesWithTransaction exEnvOk exStStale 7 [exItemNew]).1 = Except.ok () ∧
     dbEntriesFor (storeRSSEntriesWithTransaction exEnvOk exStStale 7 [exItemNew]).2.db 7 =
       dbEntriesFor exStStale.db 7 ++
         (([exItemNew].filter (fun e =>
            !(((dbEntriesFor exStStale.db 7).map (fun r => r.guid)).contains e.guid))).map
           (entryRowOf exEnvOk 7)) ∧
     List.Sorted entryDescOrder (sortEntriesDesc
       (dbEntriesFor (storeRSSEntriesWithTransaction exEnvOk exStStale 7 [exItemNew]).2.db 7)) ∧
     (sortEntriesDesc
       (dbEntriesFor (storeRSSEntriesWithTransaction exEnvOk exStStale 7 [exItemNew]).2.db 7)).Perm
       (dbEntriesFor exStStale.db 7 ++
         (([exItemNew].filter (fun e =>
            !(((dbEntriesFor exStStale.db 7).map (fun r => r.guid)).contains e.guid))).map
           (entryRowOf exEnvOk 7)))) :=
  ⟨fun _ => rfl, claim_C5 exEnvOk exStStale 7 [exItemNew] (fun _ => rfl)⟩

/-- C10 witness: the zero-item stale refresh at the concrete scenario. -/
theorem claim_C10_witness :
    (dbFindFeed exStStale.db "u" = some exFeedRowStale ∧
     fourHoursInMs ≤ exEnvNoItems.now - exFeedRowStale.lastFetched ∧
     dbFindLock exStStale.db ("refresh_lock:" ++ "u") = none ∧
     dbEntriesFor exStStale.db exFeedRowStale.id ≠ [] ∧
     (fetchAndParseFeed (exEnvNoItems.net exStStale.fetchCount) "u" exEnvNoItems.now).items
       = []) ∧
    (getRSSEntries exEnvNoItems exStStale "T" "u").2.db = exStStale.db := by
  refine ⟨⟨by decide, by decide, by decide, by decide, by decide⟩, ?_⟩
  exact claim_C10.2 exEnvNoItems exStStale "T" "u" exFeedRowStale (by decide) (by decide)
    (by decide) (fun _ => rfl) (by decide) (by decide)

/-! ## Claim C4 -/

/-- An enclosure marked audio via its `attr` wrapper's `@_type`. -/
def attrAudioTyped (enc : JVal) : Bool :=
  jTruthy (jget ((jget enc "attr").getD .nul) "@_type") &&
  jsStartsWith (jsStringOfOpt (jget ((jget enc "attr").getD .nul) "@_type")) "audio/"

/-- An enclosure marked audio via its direct `@_type` field. -/
def directAudioTyped (enc : JVal) : Bool :=
  jTruthy (jget enc "@_type") &&
  jsStartsWith (jsStringOfOpt (jget enc "@_type")) "audio/"

/-- An item consisting of one audio-typed enclosure carrying a plain `url`
child whose URL has an image-looking path segment. -/
def exAudioItem : JVal :=
  .obj [("enclosure", .obj [("@_type", .str "audio/mpeg"),
                            ("url", .str "https://h/image/x")])]

/-- C9, counterexample: the single-enclosure plain-`url`-child branch checks
only the URL heuristics, never the enclosure's `@_type`, so an enclosure
explicitly typed `audio/mpeg` whose URL contains an image-looking path
segment has its own URL returned by `extractImage`. -/
theorem claim_C9_counterexample :
    directAudioTyped ((jget exAudioItem "enclosure").getD .nul) = true ∧
    extractImage exAudioItem =
      some (jsStringOfOpt (jget ((jget exAudioItem "enclosure").getD .nul) "url")) := by
  constructor <;> decide

/-- C9 (amended): the enclosure branches that consult a type or URL do skip
audio: an audio-typed `attr` wrapper, an audio-typed direct `@_url` form,
and any audio-file-extension URL yield nothing from their branch, and
enclosure arrays whose elements are all audio-typed yield nothing from
either array loop; only the plain `url`-child branch is extension-checked
but not type-checked. -/
theorem claim_C9 :
    (∀ enc, attrAudioTyped enc = true → singleEncAttr enc = none) ∧
    (∀ enc, directAudioTyped enc = true → singleEncDirect enc = none) ∧
    (∀ enc, hasAudioExt (jsStringOfOpt (jget enc "@_url")) = true →
      singleEncDirect enc = none) ∧
    (∀ enc, hasAudioExt (jsStringOfOpt (jget ((jget enc "attr").getD .nul) "@_url")) = true →
      singleEncAttr enc = none) ∧
    (∀ enc, hasAudioExt (jsStringOfOpt (jget enc "url")) = true →
      singleEncUrlField enc = none) ∧
    (∀ encs, (∀ enc ∈ encs, attrAudioTyped enc = true) →
      encLoop1 encs = none ∧ encLoop2 encs = none) := by
  refine ⟨?_, ?_, ?_, ?_, ?_, ?_⟩
  · intro enc h
    unfold attrAudioTyped at h
    simp only [singleEncAttr, h, if_true, ite_self]
  · intro enc h
    unfold directAudioTyped at h
    simp only [singleEncDirect, h, if_true, ite_self]
  · intro enc h
    simp only [singleEncDirect, h, if_true]
    split
    · split
      · rfl
      · rfl
    · rfl
  · intro enc h
    simp only [singleEncAttr, h, if_true]
    split
    · split
      · rfl
      · split
        · rfl
        · rfl
    · rfl
  · intro enc h
    simp only [singleEncUrlField, h, if_true, ite_self]
  · intro encs h
    induction encs with
    | nil => exact ⟨rfl, rfl⟩
    | cons enc rest ih =>
      have he := h enc (by simp)
      have hr := ih (fun e hm => h e (List.mem_cons_of_mem _ hm))
      unfold attrAudioTyped at he
      refine ⟨?_, ?_⟩
      · simp only [encLoop1, he, if_true, ite_self]
        exact hr.1
      · simp only [encLoop2, he, if_true, ite_self]
        exact hr.2

/-- C9 witness: an audio-typed `attr`-wrapped enclosure is skipped by the
single-enclosure `attr` branch. -/
theorem claim_C9_witness :
    attrAudioTyped (.obj [("attr", .obj [("@_type", .str "audio/mpeg"),
      ("@_url", .str "https://h/ep.mp3")])]) = true ∧
    singleEncAttr (.obj [("attr", .obj [("@_type", .str "audio/mpeg"),
      ("@_url", .str "https://h/ep.mp3")])]) = none :=
  ⟨by decide,
   claim_C9.1 (.obj [("attr", .obj [("@_type", .str "audio/mpeg"),
     ("@_url", .str "https://h/ep.mp3")])]) (by decide)⟩

/-! ## Claim C6 -/

/-- A synthetic error guid is never the empty string. -/
theorem errorGuid_ne_empty (s : String) : ("error-" ++ s) ≠ "" := by
  intro h
  have hl := congrArg String.length h
  rw [String.length_append] at hl
  have h6 : ("error-" : String).length = 6 := rfl
  have h0 : ("" : String).length = 0 := rfl
  rw [h6, h0] at hl
  omega

/-- C6 (amended): every item produced by the parse phase — including the
fallback feeds' synthetic items and per-item failure placeholders — has a
non-empty guid and a non-empty title; a recognized RSS tree (whose `item`
field the parser always forces to an array) yields exactly the per-index
processed items of that array filtered by the validity check, a sublist of
the processed items in source order, and likewise a recognized Atom tree
whose `entry` field is an array; an unrecognized root yields the fallback
feed with exactly one error item; and a recognized Atom tree whose `entry`
field is a truthy non-array — a single-entry Atom feed, since the parser
forces arrays only for `item` — throws at `items.map` and is replaced by
the one-item fallback feed instead of returning its entry. -/
theorem claim_C6 :
    (∀ (url : String) (native : String → Option Nat) (now : Nat)
       (li : String → Option String) (fails : Nat → Bool) (rand : Nat → Nat)
       (result : JVal),
      ∀ it ∈ (processParsedFeed url native now li fails rand result).items,
        it.guid ≠ "" ∧ it.title ≠ "") ∧
    (∀ (url : String) (native : String → Option Nat) (now : Nat)
       (li : String → Option String) (fails : Nat → Bool) (rand : Nat → Nat)
       (result : JVal) (l : List JVal),
      jTruthy (jget result "rss") = true →
      jTruthy (jget ((jget result "rss").getD .nul) "channel") = true →
      jget ((jget ((jget result "rss").getD .nul) "channel").getD .nul) "item" =
        some (.arr l) →
      (processParsedFeed url native now li fails rand result).items =
        (l.mapIdx (processItem url native now
          (channelImageOf ((jget ((jget result "rss").getD .nul) "channel").getD .nul))
          (containsSub url.data ("libsyn.com").data) li fails rand)).filter validItem ∧
      ((processParsedFeed url native now li fails rand result).items).Sublist
        (l.mapIdx (processItem url native now
          (channelImageOf ((jget ((jget result "rss").getD .nul) "channel").getD .nul))
          (containsSub url.data ("libsyn.com").data) li fails rand))) ∧
    (∀ (url : String) (native : String → Option Nat) (now : Nat)
       (li : String → Option String) (fails : Nat → Bool) (rand : Nat → Nat)
       (result : JVal) (l : List JVal),
      (jTruthy (jget result "rss") &&
        jTruthy (jget ((jget result "rss").getD .nul) "channel")) = false →
      jTruthy (jget result "feed") = true →
      jget ((jget result "feed").getD .nul) "entry" = some (.arr l) →
      (processParsedFeed url native now li fails rand result).items =
        (l.mapIdx (processItem url native now
          (channelImageOf ((jget result "feed").getD .nul))
          (containsSub url.data ("libsyn.com").data) li fails rand)).filter validItem ∧
      ((processParsedFeed url native now li fails rand result).items).Sublist
        (l.mapIdx (processItem url native now
          (channelImageOf ((jget result "feed").getD .nul))
          (containsSub url.data ("libsyn.com").data) li fails rand))) ∧
    (∀ (url : String) (native : String → Option Nat) (now : Nat)
       (li : String → Option String) (fails : Nat → Bool) (rand : Nat → Nat)
       (result : JVal),
      (jTruthy (jget result "rss") &&
        jTruthy (jget ((jget result "rss").getD .nul) "channel")) = false →
      jTruthy (jget result "feed") = false →
      processParsedFeed url native now li fails rand result =
        createFallbackFeed url "Unsupported feed format" now ∧
      (processParsedFeed url native now li fails rand result).items.length = 1) ∧
    (∀ (url : String) (native : String → Option Nat) (now : Nat)
       (li : String → Option String) (fails : Nat → Bool) (rand : Nat → Nat)
       (result : JVal) (v : JVal),
      (jTruthy (jget result "rss") &&
        jTruthy (jget ((jget result "rss").getD .nul) "channel")) = false →
      jTruthy (jget result "feed") = true →
      jget ((jget result "feed").getD .nul) "entry" = some v →
      jTruthy (some v) = true →
      jIsArr (some v) = false →
      processParsedFeed url native now li fails rand result =
        createFallbackFeed url "items.map is not a function" now ∧
      (processParsedFeed url native now li fails rand result).items.length = 1) := by
  refine ⟨?_, ?_, ?_, ?_, ?_⟩
  · intro url native now li fails rand result it hit
    simp only [processParsedFeed] at hit
    split at hit
    · simp only [createFallbackFeed, List.mem_singleton] at hit
      subst hit
      exact ⟨errorGuid_ne_empty _, show ("Error fetching feed" : String) ≠ "" by decide⟩
    · split at hit
      · simp only [createFallbackFeed, List.mem_singleton] at hit
        subst hit
        exact ⟨errorGuid_ne_empty _, show ("Error fetching feed" : String) ≠ "" by decide⟩
      · dsimp only at hit
        have hv := (List.mem_filter.mp hit).2
        unfold validItem at hv
        exact of_decide_eq_true hv
  · intro url native now li fails rand result l hrss hch hitems
    have hcond : (jTruthy (jget result "rss") &&
        jTruthy (jget ((jget result "rss").getD .nul) "channel")) = true := by
      rw [hrss, hch]
      rfl
    have hbody : (processParsedFeed url native now li fails rand result).items =
        (l.mapIdx (processItem url native now
          (channelImageOf ((jget ((jget result "rss").getD .nul) "channel").getD .nul))
          (containsSub url.data ("libsyn.com").data) li fails rand)).filter validItem := by
      simp only [processParsedFeed]
      rw [if_pos hcond]
      dsimp only
      rw [hitems]
      rfl
    refine ⟨hbody, ?_⟩
    rw [hbody]
    exact List.filter_sublist _
  · intro url native now li fails rand result l hno hfeed hentry
    have hbody : (processParsedFeed url native now li fails rand result).items =
        (l.mapIdx (processItem url native now
          (channelImageOf ((jget result "feed").getD .nul))
          (containsSub url.data ("libsyn.com").data) li fails rand)).filter validItem := by
      simp only [processParsedFeed]
      rw [if_neg (by simp [hno]), if_pos hfeed]
      dsimp only
      rw [hentry]
      rfl
    refine ⟨hbody, ?_⟩
    rw [hbody]
    exact List.filter_sublist _
  · intro url native now li fails rand result h1 h2
    have hfb : processParsedFeed url native now li fails rand result =
        createFallbackFeed url "Unsupported feed format" now := by
      simp only [processParsedFeed]
      rw [if_neg (by simp [h1]), if_neg (by simp [h2])]
    exact ⟨hfb, by rw [hfb]; rfl⟩
  · intro url native now li fails rand result v hno hfeed hentry htr hnarr
    have hpi : parseItemsOf (some v) = none := by
      unfold parseItemsOf
      rw [if_neg (by simp [htr])]
      cases v with
      | arr l => simp [jIsArr] at hnarr
      | str s => rfl
      | num n => rfl
      | obj fs => rfl
      | nul => rfl
    have hfb : processParsedFeed url native now li fails rand result =
        createFallbackFeed url "items.map is not a function" now := by
      simp only [processParsedFeed]
      rw [if_neg (by simp [hno]), if_pos hfeed]
      dsimp only
      rw [hentry, hpi]
    exact ⟨hfb, by rw [hfb]; rfl⟩

/-- The item array of the concrete C6 scenario tree. -/
def exItemsL : List JVal := [.obj [("title", .str "A"), ("guid", .str "ga")]]

/-- A small concrete RSS tree. -/
def exTree : JVal :=
  .obj [("rss", .obj [("channel",
    .obj [("title", .str "T"), ("item", .arr exItemsL)])])]

/-- The channel node of `exTree` as the parser picks it. -/
def exChannel : JVal := (jget ((jget exTree "rss").getD .nul) "channel").getD .nul

/-- A recognized Atom tree with a single entry: the parser config forces
arrays only for `item`, so `entry` arrives as a plain object. -/
def exAtomTree : JVal :=
  .obj [("feed", .obj [("title", .str "T"),
    ("entry", .obj [("title", .str "A"), ("id", .str "ga")])])]

/-- C6, counterexample: a recognized single-entry Atom feed does not return
its entry in source order — `entry` is a truthy non-array, `items.map`
throws, and the whole feed is replaced by the one-item fallback. -/
theorem claim_C6_counterexample :
    jTruthy (jget exAtomTree "feed") = true ∧
    jIsArr (jget ((jget exAtomTree "feed").getD .nul) "entry") = false ∧
    processParsedFeed "u" parseISOZ exNow (fun _ => none) (fun _ => false) (fun _ => 0)
      exAtomTree =
      createFallbackFeed "u" "items.map is not a function" exNow := by
  refine ⟨rfl, rfl, ?_⟩
  decide

/-- C6 witness: the recognized-RSS case on the concrete tree. -/
theorem claim_C6_witness :
    (jTruthy (jget exTree "rss") = true ∧
     jTruthy (jget ((jget exTree "rss").getD .nul) "channel") = true ∧
     jget exChannel "item" = some (.arr exItemsL)) ∧
    ((processParsedFeed "u" parseISOZ exNow (fun _ => none) (fun _ => false)
        (fun _ => 0) exTree).items =
      (exItemsL.mapIdx (processItem "u" parseISOZ exNow (channelImageOf exChannel)
        (containsSub "u".data ("libsyn.com").data) (fun _ => none) (fun _ => false)
        (fun _ => 0))).filter validItem ∧
     ((processParsedFeed "u" parseISOZ exNow (fun _ => none) (fun _ => false)
        (fun _ => 0) exTree).items).Sublist
       (exItemsL.mapIdx (processItem "u" parseISOZ exNow (channelImageOf exChannel)
         (containsSub "u".data ("libsyn.com").data) (fun _ => none) (fun _ => false)
         (fun _ => 0)))) :=
  ⟨⟨by decide, by decide, rfl⟩,
   claim_C6.2.1 "u" parseISOZ exNow (fun _ => none) (fun _ => false) (fun _ => 0)
     exTree exItemsL (by decide) (by decide) rfl⟩

/-! ## Claim C8 -/

theorem isBareDateTime_length (s : String) (h : isBareDateTime s = true) :
    s.data.length = 19 := by
  unfold isBareDateTime at h
  split at h
  · rename_i heq
    rw [heq]
    rfl
  · exact Bool.noConfusion h

theorem isBareDate_length (s : String) (h : isBareDate s = true) :
    s.data.length = 10 := by
  unfold isBareDate at h
  split at h
  · rename_i heq
    rw [heq]
    rfl
  · exact Bool.noConfusion h

theorem bareDateTime_not_bareDate (s : String) (h : isBareDateTime s = true) :
    isBareDate s = false := by
  cases hb : isBareDate s with
  | false => rfl
  | true =>
    have h19 := isBareDateTime_length s h
    have h10 := isBareDate_length s hb
    omega

/-- The maximal day index reachable from in-range parsed date fields. -/
theorem daysFromCivil_le (y mo d : Nat) (h1 : y ≤ 9999) (h2 : mo ≤ 12) (h3 : d ≤ 31) :
    daysFromCivil y mo d ≤ 2932896 := by
  unfold daysFromCivil
  dsimp only
  split <;> split <;> omega

/-- Every instant produced by the ISO-Z parser is below `isoMax`. -/
theorem parseISOZ_lt_isoMax : ∀ (s : String) (t : Nat), parseISOZ s = some t → t < isoMax := by
  intro s t h
  simp only [parseISOZ] at h
  split at h
  · rename_i y1 y2 y3 y4 a1 m1 m2 a2 d1 d2 tc hc1 hc2 b1 i1 i2 b2 sc1 sc2 zc heq
    split at h
    · rename_i hg
      split at h
      · rename_i hr
        injection h with h
        subst h
        simp only [isDigitB, Bool.and_eq_true, decide_eq_true_eq] at hg hr
        unfold utcMillis
        have hd := daysFromCivil_le
          (1000 * digVal y1 + 100 * digVal y2 + 10 * digVal y3 + digVal y4)
          (10 * digVal m1 + digVal m2) (10 * digVal d1 + digVal d2)
          (by simp only [digVal]; omega) (by omega) (by omega)
        unfold isoMax
        omega
      · exact Option.noConfusion h
    · exact Option.noConfusion h
  · exact Option.noConfusion h

/-- Validity of the normalizer's output for any string input. -/
theorem formatDateStr_valid (native : String → Option Nat) (now : Nat) (ds : String)
    (hnow : now < isoMax) (hnat : ∀ s t, native s = some t → t < isoMax) :
    isValidISO (formatDateStr native now ds) = true := by
  simp only [formatDateStr]
  split
  · rename_i t heq
    exact isValidISO_toISOString t (hnat _ t heq)
  · exact isValidISO_toISOString now hnow

/-- C8: whenever the wall clock and the native parser stay below the
four-digit-year bound, `formatDate` always returns a well-formed ISO-8601
instant; a bare `YYYY-MM-DDTHH:MM:SS` string gets `Z` appended and so is
read as UTC (witnessed against the ECMA ISO-Z semantics `parseISOZ`); a
bare `YYYY-MM-DD` string is expanded to midnight UTC of that date; and an
input matching neither shape that the native parser rejects yields the
current instant. -/
theorem claim_C8 (native : String → Option Nat) (now : Nat)
    (hnow : now < isoMax) (hnat : ∀ s t, native s = some t → t < isoMax) :
    (∀ arg, isValidISO (formatDate native now arg) = true) ∧
    (∀ ds t, isBareDateTime ds = true →
      native (ds ++ "Z") = parseISOZ (ds ++ "Z") →
      parseISOZ (ds ++ "Z") = some t →
      formatDate native now (.strArg ds) = toISOString t) ∧
    (∀ ds t, isBareDate ds = true →
      native (ds ++ "T00:00:00Z") = parseISOZ (ds ++ "T00:00:00Z") →
      parseISOZ (ds ++ "T00:00:00Z") = some t →
      formatDate native now (.strArg ds) = toISOString t) ∧
    (∀ s, isBareDateTime s = false → isBareDate s = false → native s = none →
      formatDate native now (.strArg s) = toISOString now) := by
  refine ⟨?_, ?_, ?_, ?_⟩
  · intro arg
    cases arg with
    | strArg s => exact formatDateStr_valid native now s hnow hnat
    | dateArg ms => exact formatDateStr_valid native now _ hnow hnat
    | otherArg s => exact formatDateStr_valid native now s hnow hnat
  · intro ds t hb hnatv hp
    show formatDateStr native now ds = toISOString t
    simp only [formatDateStr]
    rw [if_neg (by simp [bareDateTime_not_bareDate ds hb]), if_pos hb, hnatv, hp]
  · intro ds t hb hnatv hp
    show formatDateStr native now ds = toISOString t
    simp only [formatDateStr]
    rw [if_pos hb, hnatv, hp]
  · intro s hbdt hbd hnone
    show formatDateStr native now s = toISOString now
    simp only [formatDateStr]
    rw [if_neg (by simp [hbd]), if_neg (by simp [hbdt]), hnone]

/-- C8 witness: the bare date-time case under the ECMA ISO-Z native parser,
fully evaluated. -/
theorem claim_C8_witness :
    (exNow < isoMax ∧ (∀ s t, parseISOZ s = some t → t < isoMax) ∧
     isBareDateTime "2020-06-01T10:20:30" = true) ∧
    formatDate parseISOZ exNow (.strArg "2020-06-01T10:20:30") =
      "2020-06-01T10:20:30.000Z" := by
  refine ⟨⟨by decide, parseISOZ_lt_isoMax, by decide⟩, ?_⟩
  have h := (claim_C8 parseISOZ exNow (by decide) parseISOZ_lt_isoMax).2.1
    "2020-06-01T10:20:30" (utcMillis 2020 6 1 10 20 30) (by decide) rfl (by decide)
  rw [h]
  decide

end RSSVerify
